import Mathlib

/-!
Shallow embedding of the authentication proxy in `worker/index.ts` of the
iceberg.rest repository (Cloudflare Worker: encrypted credential storage,
session store, bearer / OAuth2 / SigV4 auth strategy resolution, request
proxy), together with theorems settling the specification claims.

Modelling conventions:
* JavaScript strings are modelled as Lean `String` (lists of Unicode scalar
  values); byte sequences (`Uint8Array` / `ArrayBuffer`) as `List Nat` with
  each entry `< 256`.
* The Web Crypto AES-GCM primitive is external to the repository; it is
  modelled as a bundled authenticated-encryption structure `AEAD` whose
  only assumed properties are that decryption inverts encryption and that
  outputs are bytes.  SHA-256 / HMAC-SHA256 are likewise external and
  modelled by the bundled structure `CryptoHash` (no properties assumed).
* `fetch` is modelled as a function `net : HttpReq → HttpResp`; handlers
  return the list of outbound requests they issued so that claims about
  the number and shape of network calls can be stated.
* Host-thrown exception texts (AES-GCM failure, `JSON.parse` failure,
  URL-constructor failure) are environment-defined strings; they are
  passed in as the `EnvMsgs` parameter rather than invented.
-/

namespace IcebergRest

abbrev Bytes := List Nat

/-- Lowercase hexadecimal digit, as produced by JS `Number.prototype.toString(16)`. -/
def hexLowerDigit (n : Nat) : Char :=
  if n < 10 then Char.ofNat (48 + n) else Char.ofNat (87 + n)

/-- Uppercase hexadecimal digit, as produced by `encodeURIComponent` percent escapes. -/
def hexUpperDigit (n : Nat) : Char :=
  if n < 10 then Char.ofNat (48 + n) else Char.ofNat (55 + n)

/-- Models `b.toString(16).padStart(2, '0')` for a byte `b < 256`. -/
def byteToHex (b : Nat) : List Char := [hexLowerDigit (b / 16), hexLowerDigit (b % 16)]

/-- Lowercase hex rendering of a byte array, as in the worker's `sha256`/`hmacSha256` helpers. -/
def toHexStr (bs : Bytes) : String := String.mk ((bs.map byteToHex).flatten)

/-- Value of a hexadecimal digit character (either case), `none` for non-hex characters. -/
def hexVal (c : Char) : Option Nat :=
  if 48 ≤ c.toNat ∧ c.toNat ≤ 57 then some (c.toNat - 48)
  else if 97 ≤ c.toNat ∧ c.toNat ≤ 102 then some (c.toNat - 87)
  else if 65 ≤ c.toNat ∧ c.toNat ≤ 70 then some (c.toNat - 55)
  else none

/-! ### Base64 (models `btoa(String.fromCharCode(...bytes))` and `atob`) -/

def base64Alphabet : List Char :=
  "ABCDEFGHIJKLMNOPQRSTUVWXYZabcdefghijklmnopqrstuvwxyz0123456789+/".toList

def b64Char (n : Nat) : Char := base64Alphabet.getD n 'A'

def b64Val (c : Char) : Option Nat :=
  match base64Alphabet.indexOf c with
  | i => if i < 64 then some i else none

/-- Base64 encoding of a byte list, i.e. the composite
`btoa(String.fromCharCode(...bytes))` used by `encryptToken`. -/
def bytesToBase64 : Bytes → List Char
  | [] => []
  | [b0] => [b64Char (b0 / 4), b64Char (b0 % 4 * 16), '=', '=']
  | [b0, b1] => [b64Char (b0 / 4), b64Char (b0 % 4 * 16 + b1 / 16), b64Char (b1 % 16 * 4), '=']
  | b0 :: b1 :: b2 :: rest =>
    b64Char (b0 / 4) :: b64Char (b0 % 4 * 16 + b1 / 16) :: b64Char (b1 % 16 * 4 + b2 / 64) ::
      b64Char (b2 % 64) :: bytesToBase64 rest

/-- Base64 decoding (models `atob` followed by `charCodeAt` on each character,
on well-padded input; malformed input is mapped to `none`, modelling the
`InvalidCharacterError` thrown by `atob`). -/
def base64ToBytes : List Char → Option Bytes
  | [] => some []
  | c0 :: c1 :: c2 :: c3 :: rest =>
    if c2 = '=' then
      if c3 = '=' ∧ rest = [] then
        match b64Val c0, b64Val c1 with
        | some v0, some v1 => if v1 % 16 = 0 then some [v0 * 4 + v1 / 16] else none
        | _, _ => none
      else none
    else if c3 = '=' then
      if rest = [] then
        match b64Val c0, b64Val c1, b64Val c2 with
        | some v0, some v1, some v2 =>
          if v2 % 4 = 0 then some [v0 * 4 + v1 / 16, v1 % 16 * 16 + v2 / 4] else none
        | _, _, _ => none
      else none
    else
      match b64Val c0, b64Val c1, b64Val c2, b64Val c3, base64ToBytes rest with
      | some v0, some v1, some v2, some v3, some bs =>
        some ((v0 * 4 + v1 / 16) :: (v1 % 16 * 16 + v2 / 4) :: (v2 % 4 * 64 + v3) :: bs)
      | _, _, _, _, _ => none
  | _ => none

/-! ### UTF-8 (models `TextEncoder.encode` / `TextDecoder.decode`) -/

/-- UTF-8 encoding of a single Unicode scalar value. -/
def utf8EncodeChar (n : Nat) : List Nat :=
  if n < 128 then [n]
  else if n < 2048 then [192 + n / 64, 128 + n % 64]
  else if n < 65536 then [224 + n / 4096, 128 + n / 64 % 64, 128 + n % 64]
  else [240 + n / 262144, 128 + n / 4096 % 64, 128 + n / 64 % 64, 128 + n % 64]

/-- Models `new TextEncoder().encode(s)`. -/
def utf8Encode (s : List Char) : Bytes := (s.map (fun c => utf8EncodeChar c.toNat)).flatten

/-- Decode one UTF-8-encoded scalar value from the front of a byte list. -/
def utf8DecodeChar : List Nat → Option (Nat × List Nat)
  | [] => none
  | b0 :: rest =>
    if b0 < 128 then some (b0, rest)
    else if b0 < 192 then none
    else if b0 < 224 then
      match rest with
      | b1 :: r1 =>
        if 128 ≤ b1 ∧ b1 < 192 then some ((b0 - 192) * 64 + (b1 - 128), r1) else none
      | [] => none
    else if b0 < 240 then
      match rest with
      | b1 :: b2 :: r2 =>
        if (128 ≤ b1 ∧ b1 < 192) ∧ (128 ≤ b2 ∧ b2 < 192) then
          some ((b0 - 224) * 4096 + (b1 - 128) * 64 + (b2 - 128), r2)
        else none
      | _ => none
    else if b0 < 248 then
      match rest with
      | b1 :: b2 :: b3 :: r3 =>
        if (128 ≤ b1 ∧ b1 < 192) ∧ (128 ≤ b2 ∧ b2 < 192) ∧ (128 ≤ b3 ∧ b3 < 192) then
          some ((b0 - 240) * 262144 + (b1 - 128) * 4096 + (b2 - 128) * 64 + (b3 - 128), r3)
        else none
      | _ => none
    else none

def utf8DecodeAux : Nat → List Nat → Option (List Char)
  | _, [] => some []
  | 0, _ :: _ => none
  | fuel + 1, b :: bs =>
    match utf8DecodeChar (b :: bs) with
    | some (n, rest) => (utf8DecodeAux fuel rest).map (fun cs => Char.ofNat n :: cs)
    | none => none

/-- Models `new TextDecoder().decode(bytes)` on valid UTF-8 input (invalid
input, which the real decoder maps to replacement characters, is mapped to
`none`; no claim depends on that case). -/
def utf8Decode (bs : Bytes) : Option (List Char) := utf8DecodeAux bs.length bs

/-! ### Authenticated encryption (models Web Crypto AES-GCM) -/

/-- External AES-GCM primitive: `enc key iv plaintext` is the ciphertext
with appended authentication tag, `dec key iv data` verifies and decrypts.
The only assumed properties are that decryption inverts encryption under
the same key and nonce and that outputs are bytes. -/
structure AEAD where
  enc : Bytes → Bytes → Bytes → Bytes
  dec : Bytes → Bytes → Bytes → Option Bytes
  dec_enc : ∀ k iv m, dec k iv (enc k iv m) = some m
  enc_bytes : ∀ k iv m, (∀ b ∈ m, b < 256) → ∀ b ∈ enc k iv m, b < 256

/-- Concrete instance of `AEAD` used to evaluate witnesses: a one-byte
marker plays the role of the authentication tag. -/
def mockAead : AEAD where
  enc _ _ m := 1 :: m
  dec _ _ c := match c with | 1 :: m => some m | _ => none
  dec_enc := by intro k iv m; rfl
  enc_bytes := by
    intro k iv m hm b hb
    rcases List.mem_cons.mp hb with hb2 | hb2
    · omega
    · exact hm b hb2

/-- Models `encryptToken` (worker/index.ts:33): UTF-8 encode the token,
AES-GCM encrypt it under the random 96-bit `iv`, prepend the iv, base64
encode.  The random iv drawn by `crypto.getRandomValues` is a parameter. -/
def encryptToken (A : AEAD) (key : Bytes) (iv : Bytes) (token : String) : String :=
  String.mk (bytesToBase64 (iv ++ A.enc key iv (utf8Encode token.data)))

/-- Models `decryptToken` (worker/index.ts:56): base64 decode, split off the
12-byte iv, AES-GCM decrypt, UTF-8 decode.  `none` models the exception
thrown when the authentication tag does not verify (or input is malformed). -/
def decryptToken (A : AEAD) (key : Bytes) (s : String) : Option String :=
  (base64ToBytes s.data).bind fun combined =>
    (A.dec key (combined.take 12) (combined.drop 12)).bind fun m =>
      (utf8Decode m).map String.mk

/-! ### JSON serialization of credential records

`handleLogin` stores `JSON.stringify(credentials)` where `credentials` is one
of four flat string records; `getSession` recovers it with `JSON.parse`.  The
records are modelled by `Creds` and the JSON codec is implemented concretely
(string escaping exactly as in `JSON.stringify`); the parser covers the
documents this grammar produces and maps everything else to `none`. -/

inductive Creds where
  | bearer (token : String)
  | oauth2 (oauthEndpoint clientId clientSecret scope : String)
  | sigv4 (awsAccessKey awsSecretKey awsRegion awsService : String)
  | empty
deriving DecidableEq, Repr

def lbrace : Char := Char.ofNat 123

def rbrace : Char := Char.ofNat 125

/-- JSON string escaping as performed by `JSON.stringify` on Unicode scalar
values: quote and backslash get a backslash escape, control characters get
their short escapes or a `\u00xx` escape, everything else is literal. -/
def jsonEscapeChar (c : Char) : List Char :=
  if c = '"' then ['\\', '"']
  else if c = '\\' then ['\\', '\\']
  else if c.toNat = 8 then ['\\', 'b']
  else if c.toNat = 9 then ['\\', 't']
  else if c.toNat = 10 then ['\\', 'n']
  else if c.toNat = 12 then ['\\', 'f']
  else if c.toNat = 13 then ['\\', 'r']
  else if c.toNat < 32 then
    ['\\', 'u', '0', '0', hexLowerDigit (c.toNat / 16), hexLowerDigit (c.toNat % 16)]
  else [c]

/-- A JSON string literal, quotes included. -/
def jsonQuote (s : String) : List Char := '"' :: ((s.data.map jsonEscapeChar).flatten ++ ['"'])

/-- One `"key":"value"` member of a JSON object. -/
def kv (key v : String) : List Char := '"' :: (key.data ++ ['"', ':'] ++ jsonQuote v)

/-- Models `JSON.stringify(credentials)` for each record shape built by
`handleLogin` (keys in insertion order, as `JSON.stringify` emits them). -/
def stringifyCreds : Creds → String
  | .bearer t => String.mk (lbrace :: (kv "token" t ++ [rbrace]))
  | .oauth2 e cid cs sc =>
    String.mk (lbrace :: (kv "oauthEndpoint" e ++ (',' :: (kv "clientId" cid ++
      (',' :: (kv "clientSecret" cs ++ (',' :: (kv "scope" sc ++ [rbrace]))))))))
  | .sigv4 ak sk rg sv =>
    String.mk (lbrace :: (kv "awsAccessKey" ak ++ (',' :: (kv "awsSecretKey" sk ++
      (',' :: (kv "awsRegion" rg ++ (',' :: (kv "awsService" sv ++ [rbrace]))))))))
  | .empty => String.mk [lbrace, rbrace]

def mapConsChar (c : Char) (o : Option (List Char × List Char)) : Option (List Char × List Char) :=
  o.map (fun p => (c :: p.1, p.2))

/-- Parse the body of a JSON string literal (the opening quote already
consumed); returns the unescaped content and the input after the closing
quote. -/
def parseJsonStr : List Char → Option (List Char × List Char)
  | [] => none
  | c :: r =>
    if c = '"' then some ([], r)
    else if c = '\\' then
      match r with
      | [] => none
      | e :: r2 =>
        if e = '"' then mapConsChar '"' (parseJsonStr r2)
        else if e = '\\' then mapConsChar '\\' (parseJsonStr r2)
        else if e = '/' then mapConsChar '/' (parseJsonStr r2)
        else if e = 'b' then mapConsChar (Char.ofNat 8) (parseJsonStr r2)
        else if e = 't' then mapConsChar (Char.ofNat 9) (parseJsonStr r2)
        else if e = 'n' then mapConsChar (Char.ofNat 10) (parseJsonStr r2)
        else if e = 'f' then mapConsChar (Char.ofNat 12) (parseJsonStr r2)
        else if e = 'r' then mapConsChar (Char.ofNat 13) (parseJsonStr r2)
        else if e = 'u' then
          match r2 with
          | h1 :: h2 :: h3 :: h4 :: r3 =>
            match hexVal h1, hexVal h2, hexVal h3, hexVal h4 with
            | some a, some b, some c2, some d =>
              mapConsChar (Char.ofNat (a * 4096 + b * 256 + c2 * 16 + d)) (parseJsonStr r3)
            | _, _, _, _ => none
          | _ => none
        else none
    else mapConsChar c (parseJsonStr r)

/-- Consume an expected literal character sequence. -/
def expectChars : List Char → List Char → Option (List Char)
  | [], l => some l
  | p :: ps, c :: cs => if c = p then expectChars ps cs else none
  | _ :: _, [] => none

/-- Parse one `"key":"value"` member with the given key; returns the value
and the remaining input. -/
def parseMember (key : String) (l : List Char) : Option (String × List Char) :=
  match expectChars ('"' :: (key.data ++ ['"', ':', '"'])) l with
  | some l1 => (parseJsonStr l1).map (fun p => (String.mk p.1, p.2))
  | none => none

/-- Models `JSON.parse` restricted to the credential documents produced by
`stringifyCreds` (the only documents the worker ever stores); anything else
is mapped to `none`, modelling a parse failure. -/
def parseCreds (s : String) : Option Creds :=
  match s.data with
  | [] => none
  | c :: rest =>
    if c = lbrace then
      if rest = [rbrace] then some Creds.empty
      else
        match parseMember "token" rest with
        | some (t, r1) => if r1 = [rbrace] then some (Creds.bearer t) else none
        | none =>
          match parseMember "oauthEndpoint" rest with
          | some (e, r1) =>
            (expectChars [','] r1).bind fun r2 =>
            (parseMember "clientId" r2).bind fun p3 =>
            (expectChars [','] p3.2).bind fun r4 =>
            (parseMember "clientSecret" r4).bind fun p5 =>
            (expectChars [','] p5.2).bind fun r6 =>
            (parseMember "scope" r6).bind fun p7 =>
            if p7.2 = [rbrace] then some (Creds.oauth2 e p3.1 p5.1 p7.1) else none
          | none =>
            match parseMember "awsAccessKey" rest with
            | some (ak, r1) =>
              (expectChars [','] r1).bind fun r2 =>
              (parseMember "awsSecretKey" r2).bind fun p3 =>
              (expectChars [','] p3.2).bind fun r4 =>
              (parseMember "awsRegion" r4).bind fun p5 =>
              (expectChars [','] p5.2).bind fun r6 =>
              (parseMember "awsService" r6).bind fun p7 =>
              if p7.2 = [rbrace] then some (Creds.sigv4 ak p3.1 p5.1 p7.1) else none
            | none => none
    else none

/-! ### Session store (models the D1 `sessions` table and its queries) -/

/-- Session expires after 24 hours (`SESSION_DURATION`, worker/index.ts:19). -/
def SESSION_DURATION : Nat := 24 * 60 * 60 * 1000

/-- One row of the `sessions` table (client metadata columns that no claim
touches — ip address, user agent, country — are omitted). -/
structure SessionRow where
  session_id : String
  auth_type : String
  encrypted_credentials : String
  endpoint : String
  warehouse : Option String
  created_at : Nat
  expires_at : Nat
  last_used_at : Nat
deriving DecidableEq, Repr

/-- The decrypted in-process session value returned by `getSession`. -/
structure Session where
  sessionId : String
  authType : String
  credentials : Creds
  endpoint : String
  warehouse : Option String
deriving DecidableEq, Repr

/-- Host-environment exception messages (AES-GCM decrypt failure,
`JSON.parse` failure, URL-constructor failure).  Their text is defined by
the JS runtime, not by this repository, so it is a parameter. -/
structure EnvMsgs where
  decryptMsg : String
  parseMsg : String
  urlMsg : String

/-- The session row built and INSERTed by `handleLogin` (worker/index.ts:229-261):
fresh session id, credentials JSON-serialized and encrypted, `created_at = now`,
`expires_at = now + SESSION_DURATION`, `last_used_at = now`. -/
def createSessionRow (A : AEAD) (key iv : Bytes) (sessionId authType : String)
    (creds : Creds) (endpoint : String) (warehouse : Option String) (now : Nat) : SessionRow :=
  { session_id := sessionId
    auth_type := authType
    encrypted_credentials := encryptToken A key iv (stringifyCreds creds)
    endpoint := endpoint
    warehouse := warehouse
    created_at := now
    expires_at := now + SESSION_DURATION
    last_used_at := now }

/-- Row predicate of the query
`SELECT * FROM sessions WHERE session_id = ? AND expires_at > ?`. -/
def sessionRowMatch (sid : String) (now : Nat) (r : SessionRow) : Bool :=
  r.session_id == sid && decide (now < r.expires_at)

/-- Models `getSession` (worker/index.ts:298): select the live row, decrypt
and parse the credentials.  `Except.error` models the exception thrown when
decryption or `JSON.parse` fails (it propagates to the caller); the
`last_used_at` UPDATE only mutates non-returned metadata and is omitted. -/
def getSession (A : AEAD) (key : Bytes) (E : EnvMsgs) (db : List SessionRow)
    (sid : String) (now : Nat) : Except String (Option Session) :=
  match db.find? (sessionRowMatch sid now) with
  | none => .ok none
  | some r =>
    match decryptToken A key r.encrypted_credentials with
    | none => .error E.decryptMsg
    | some credentialsJson =>
      match parseCreds credentialsJson with
      | none => .error E.parseMsg
      | some credentials =>
        .ok (some { sessionId := r.session_id, authType := r.auth_type,
                    credentials := credentials, endpoint := r.endpoint,
                    warehouse := r.warehouse })

/-! ### HTTP model -/

/-- An outbound HTTP request issued via `fetch`. -/
structure HttpReq where
  url : String
  method : String
  headers : List (String × String)
  body : String
deriving DecidableEq, Repr

/-- A `fetch` response.  `jsonFields` models the string-valued fields of the
parsed JSON body as read by `await response.json()` (only `access_token` is
ever accessed); `body` is the text read by `await response.text()`. -/
structure HttpResp where
  status : Nat
  statusText : String
  body : String
  jsonFields : List (String × String)
deriving DecidableEq, Repr

/-- `response.ok`: status in the 200 range. -/
def HttpResp.respOk (r : HttpResp) : Bool := decide (200 ≤ r.status ∧ r.status < 300)

/-- A worker `Response` handed back to the client. -/
structure Response where
  status : Nat
  statusText : String
  headers : List (String × String)
  body : String
deriving DecidableEq, Repr

/-- Case-sensitive lookup of a header / field in an association list. -/
def lookupField (l : List (String × String)) (name : String) : Option String :=
  (l.find? (fun p => p.1 == name)).map Prod.snd

def jsShow : Option String → String
  | some s => s
  | none => "undefined"

/-- Models `btoa(s)` on a Latin-1 string. -/
def jsBtoa (s : String) : String := String.mk (bytesToBase64 (s.data.map Char.toNat))

def contentTypeJson : String × String := ("Content-Type", "application/json")

/-- The 401 returned when the `X-Session-ID` header is absent (worker/index.ts:472). -/
def resp401MissingHeader : Response :=
  { status := 401, statusText := "", headers := [contentTypeJson],
    body := String.mk (lbrace :: (kv "error" "Missing X-Session-ID header" ++ [rbrace])) }

/-- The 401 returned when the session is unknown or expired (worker/index.ts:482). -/
def resp401Invalid : Response :=
  { status := 401, statusText := "", headers := [contentTypeJson],
    body := String.mk (lbrace :: (kv "error" "Invalid or expired session" ++ [rbrace])) }

/-- The 502 built by the catch-all of `handleIcebergProxy` (worker/index.ts:570-585):
body `JSON.stringify({error: 'Proxy error', message})`. -/
def proxyErrorResponse (msg : String) : Response :=
  { status := 502, statusText := "",
    headers := [contentTypeJson, ("Access-Control-Allow-Origin", "*")],
    body := String.mk (lbrace :: (kv "error" "Proxy error" ++ ',' :: kv "message" msg ++ [rbrace])) }

/-- The fixed headers attached to every relayed upstream response
(worker/index.ts:559-563): three CORS headers plus `Content-Type`. -/
def relayHeaders : List (String × String) :=
  [("Access-Control-Allow-Origin", "*"),
   ("Access-Control-Allow-Methods", "GET, POST, PUT, DELETE, OPTIONS"),
   ("Access-Control-Allow-Headers", "Content-Type, Authorization, X-Session-ID"),
   ("Content-Type", "application/json")]

/-! ### URLs, query strings and `localeCompare` -/

/-- Replace the first occurrence of a (nonempty) pattern, as JS
`String.prototype.replace` with a string argument does. -/
def listReplaceFirst (pat : List Char) : List Char → List Char
  | [] => []
  | c :: cs =>
    if pat ≠ [] ∧ pat.isPrefixOf (c :: cs) then (c :: cs).drop pat.length
    else c :: listReplaceFirst pat cs

def replaceFirst (pat s : String) : String := String.mk (listReplaceFirst pat.data s.data)

/-- The components of a parsed URL used by the worker. -/
structure UrlParts where
  host : String
  pathname : String
  search : String
deriving DecidableEq, Repr

/-- Split a list at the first occurrence of a pattern. -/
def splitAtSub (pat : List Char) : List Char → Option (List Char × List Char)
  | [] => none
  | c :: cs =>
    if pat.isPrefixOf (c :: cs) then some ([], (c :: cs).drop pat.length)
    else (splitAtSub pat cs).map (fun p => (c :: p.1, p.2))

/-- Models `new URL(s)` for absolute `scheme://host[/path][?query]` URLs:
extracts host (with port), pathname (normalized to `/` when empty) and
search (with leading `?`, or empty).  URLs without `://` or with an empty
host are mapped to `none`, modelling the thrown `TypeError`. -/
def parseUrl (s : String) : Option UrlParts :=
  (splitAtSub "://".data s.data).bind fun p =>
    let rest := p.2
    let host := rest.takeWhile (fun c => !(c == '/' || c == '?'))
    let after := rest.dropWhile (fun c => !(c == '/' || c == '?'))
    if host.isEmpty then none
    else
      let pathname := after.takeWhile (fun c => !(c == '?'))
      let search := after.dropWhile (fun c => !(c == '?'))
      some { host := String.mk host
             pathname := if pathname.isEmpty then "/" else String.mk pathname
             search := String.mk search }

/-- Characters `encodeURIComponent` leaves unescaped. -/
def isUnreservedURI (c : Char) : Bool :=
  (decide (65 ≤ c.toNat) && decide (c.toNat ≤ 90)) ||
  (decide (97 ≤ c.toNat) && decide (c.toNat ≤ 122)) ||
  (decide (48 ≤ c.toNat) && decide (c.toNat ≤ 57)) ||
  c == '-' || c == '_' || c == '.' || c == '!' || c == '~' || c == '*' ||
  c == Char.ofNat 39 || c == '(' || c == ')'

def pctEncodeChar (c : Char) : List Char :=
  if isUnreservedURI c then [c]
  else ((utf8EncodeChar c.toNat).map (fun b => ['%', hexUpperDigit (b / 16), hexUpperDigit (b % 16)])).flatten

/-- Models `encodeURIComponent`. -/
def encodeURIComponent (s : String) : String := String.mk ((s.data.map pctEncodeChar).flatten)

/-- Split on a separator character (keeping empty pieces). -/
def splitChar (sep : Char) : List Char → List (List Char)
  | [] => [[]]
  | c :: cs =>
    match splitChar sep cs with
    | [] => if c = sep then [[], []] else [[c]]
    | h :: t => if c = sep then [] :: h :: t else (c :: h) :: t

/-- Split a query piece at its first `=`. -/
def splitFirstEq : List Char → List Char × List Char
  | [] => ([], [])
  | c :: r => if c = '=' then ([], r) else
    match splitFirstEq r with
    | (k, v) => (c :: k, v)

/-- `application/x-www-form-urlencoded` decoding to bytes: `+` is space,
`%hh` is a byte, other characters contribute their UTF-8 bytes. -/
def formDecodeBytesF : Nat → List Char → List Nat
  | 0, _ => []
  | _, [] => []
  | fuel + 1, c :: cs =>
    if c = '+' then 32 :: formDecodeBytesF fuel cs
    else if c = '%' then
      match cs with
      | h1 :: h2 :: r =>
        match hexVal h1, hexVal h2 with
        | some a, some b => (a * 16 + b) :: formDecodeBytesF fuel r
        | _, _ => utf8EncodeChar c.toNat ++ formDecodeBytesF fuel (h1 :: h2 :: r)
      | _ => utf8EncodeChar c.toNat ++ formDecodeBytesF fuel cs
    else utf8EncodeChar c.toNat ++ formDecodeBytesF fuel cs

def formDecodeBytes (l : List Char) : List Nat := formDecodeBytesF l.length l

/-- Decode one form-urlencoded component (falling back to the raw text when
the percent escapes are not valid UTF-8, which the real decoder would map to
replacement characters; no claim exercises that case). -/
def formDecodeStr (l : List Char) : String :=
  match utf8Decode (formDecodeBytes l) with
  | some cs => String.mk cs
  | none => String.mk l

/-- Models `new URLSearchParams(url.search).entries()`: strip the leading
`?`, split on `&`, drop empty pieces, split each piece at its first `=`
and form-decode key and value. -/
def urlSearchParamsEntries (search : String) : List (String × String) :=
  let body := match search.data with
    | c :: r => if c = '?' then r else c :: r
    | [] => []
  ((splitChar '&' body).filter (fun piece => !piece.isEmpty)).map (fun piece =>
    match splitFirstEq piece with
    | (k, v) => (formDecodeStr k, formDecodeStr v))

/-- Compare two `Nat` lists lexicographically, returning a JS-style sign. -/
def cmpNatList : List Nat → List Nat → Int
  | [], [] => 0
  | [], _ :: _ => -1
  | _ :: _, [] => 1
  | a :: as2, b :: bs2 => if a < b then -1 else if b < a then 1 else cmpNatList as2 bs2

/-- Primary collation weight of the ICU root collation, restricted to ASCII:
letters compare case-insensitively above digits, digits above the remaining
characters. -/
def icuPrimary (c : Char) : Nat :=
  if 97 ≤ c.toNat ∧ c.toNat ≤ 122 then 1000 + (c.toNat - 97)
  else if 65 ≤ c.toNat ∧ c.toNat ≤ 90 then 1000 + (c.toNat - 65)
  else if 48 ≤ c.toNat ∧ c.toNat ≤ 57 then 500 + c.toNat
  else c.toNat

/-- Tertiary (case) weight: lowercase before uppercase. -/
def icuTertiary (c : Char) : Nat := if 65 ≤ c.toNat ∧ c.toNat ≤ 90 then 1 else 0

/-- Models `a.localeCompare(b)` under the default (ICU root) collation on
ASCII strings: case-insensitive primary comparison, then lowercase before
uppercase.  In particular `localeCompare "a" "B" = -1` although in code
point order `B < a`. -/
def localeCompare (a b : String) : Int :=
  let p := cmpNatList (a.data.map icuPrimary) (b.data.map icuPrimary)
  if p = 0 then cmpNatList (a.data.map icuTertiary) (b.data.map icuTertiary) else p

/-- Stable insert for the JS `Array.prototype.sort` comparator contract. -/
def insertCmp (cmp : α → α → Int) (x : α) : List α → List α
  | [] => [x]
  | y :: ys => if cmp y x ≤ 0 then y :: insertCmp cmp x ys else x :: y :: ys

/-- Models `Array.prototype.sort(comparator)` (a stable sort). -/
def jsSort (cmp : α → α → Int) (l : List α) : List α :=
  l.foldl (fun acc x => insertCmp cmp x acc) []

/-- The canonical query string as built by `signAwsRequest`
(worker/index.ts:369-371): `URLSearchParams` decoding, a sort by
`([a], [b]) => a.localeCompare(b)`, re-encoding with `encodeURIComponent`
and joining with `&`. -/
def sortedCanonicalQuery (search : String) : String :=
  let entries := urlSearchParamsEntries search
  let sorted := jsSort (fun p q => localeCompare p.1 q.1) entries
  String.intercalate "&" (sorted.map (fun p => encodeURIComponent p.1 ++ "=" ++ encodeURIComponent p.2))

/-- Modelled from the spec: the canonical query string with the entries
sorted lexicographically by key in byte (code point) order, as AWS SigV4
requires — stated for comparison with `sortedCanonicalQuery`, which is what
the code does. -/
def specCanonicalQuery (search : String) : String :=
  let entries := urlSearchParamsEntries search
  let sorted := jsSort (fun p q => cmpNatList (p.1.data.map Char.toNat) (q.1.data.map Char.toNat)) entries
  String.intercalate "&" (sorted.map (fun p => encodeURIComponent p.1 ++ "=" ++ encodeURIComponent p.2))

/-! ### SigV4 signer (models `signAwsRequest` and its helpers) -/

/-- External SHA-256 / HMAC-SHA256 primitives (Web Crypto `crypto.subtle`):
byte functions with no assumed properties except that outputs are bytes. -/
structure CryptoHash where
  sha256Raw : Bytes → Bytes
  hmacShaRaw : Bytes → Bytes → Bytes
  sha256_bytes : ∀ m, ∀ b ∈ sha256Raw m, b < 256
  hmac_bytes : ∀ k m, ∀ b ∈ hmacShaRaw k m, b < 256

/-- Concrete instance of `CryptoHash` used to evaluate witnesses. -/
def mockHash : CryptoHash where
  sha256Raw m := [m.length % 256]
  hmacShaRaw k m := [(k.length + m.length) % 256]
  sha256_bytes := by intro m b hb; rcases List.mem_singleton.mp hb with h; omega
  hmac_bytes := by intro k m b hb; rcases List.mem_singleton.mp hb with h; omega

/-- Models the worker's `sha256` helper (worker/index.ts:411): lowercase hex
of the SHA-256 of the UTF-8 bytes of the message. -/
def sha256 (H : CryptoHash) (message : String) : String :=
  toHexStr (H.sha256Raw (utf8Encode message.data))

/-- Models the worker's `hmacSha256` helper (worker/index.ts:421): lowercase
hex of the HMAC-SHA256 of the message under a raw byte key. -/
def hmacSha256 (H : CryptoHash) (message : String) (key : Bytes) : String :=
  toHexStr (H.hmacShaRaw key (utf8Encode message.data))

/-- Models the worker's `hmac` helper with a byte-array key. -/
def hmac (H : CryptoHash) (key : Bytes) (message : String) : Bytes :=
  H.hmacShaRaw key (utf8Encode message.data)

/-- Models the worker's `hmac` helper with a string key (UTF-8 encoded). -/
def hmacStrKey (H : CryptoHash) (key message : String) : Bytes :=
  H.hmacShaRaw (utf8Encode key.data) (utf8Encode message.data)

/-- Models `getSignatureKey` (worker/index.ts:437): the four-step
HMAC-SHA256 chain deriving the signing key. -/
def getSignatureKey (H : CryptoHash) (key dateStamp regionName serviceName : String) : Bytes :=
  let kDate := hmacStrKey H ("AWS4" ++ key) dateStamp
  let kRegion := hmac H kDate regionName
  let kService := hmac H kRegion serviceName
  let kSigning := hmac H kService "aws4_request"
  kSigning

/-- Models the `dateStamp` computation of `signAwsRequest`: the first ten
characters of the ISO timestamp with every dash removed. -/
def dateStampOf (iso : String) : String :=
  String.mk ((iso.data.take 10).filter (fun c => !(c == '-')))

/-- One pass of the global regex replace that deletes every colon, every
dash, and every dot followed by three digits. -/
def amzScan : List Char → List Char
  | [] => []
  | '.' :: d1 :: d2 :: d3 :: r =>
    if d1.isDigit && d2.isDigit && d3.isDigit then amzScan r
    else '.' :: amzScan (d1 :: d2 :: d3 :: r)
  | c :: r => if c = ':' ∨ c = '-' then amzScan r else c :: amzScan r

/-- Models the `amzDate` computation of `signAwsRequest`: the ISO timestamp
with colons, dashes and the millisecond part removed. -/
def amzDateOf (iso : String) : String := String.mk (amzScan iso.data)

/-- The `awsService || 's3tables'` default (also applied at login). -/
def resolveAwsService : Option String → String
  | some s => if s = "" then "s3tables" else s
  | none => "s3tables"

/-- The canonical request string of `signAwsRequest` (worker/index.ts:364-382). -/
def canonicalRequestOf (H : CryptoHash) (method canonicalUri search host amzDate requestBody : String) : String :=
  let canonicalQueryString := sortedCanonicalQuery search
  let payloadHash := sha256 H requestBody
  let canonicalHeaders :=
    "host:" ++ host ++ "\n" ++ "x-amz-content-sha256:" ++ payloadHash ++ "\n" ++
    "x-amz-date:" ++ amzDate ++ "\n"
  method ++ "\n" ++ canonicalUri ++ "\n" ++ canonicalQueryString ++ "\n" ++
    canonicalHeaders ++ "\n" ++ "host;x-amz-content-sha256;x-amz-date" ++ "\n" ++ payloadHash

/-- The string to sign of `signAwsRequest` (worker/index.ts:384-388). -/
def stringToSignOf (H : CryptoHash) (amzDate credentialScope canonicalRequest : String) : String :=
  "AWS4-HMAC-SHA256" ++ "\n" ++ amzDate ++ "\n" ++ credentialScope ++ "\n" ++ sha256 H canonicalRequest

/-- Models `signAwsRequest` (worker/index.ts:350-406).  The URL components
come from `new URL(request.url)`; `isoNow` is `new Date().toISOString()`;
the access key / secret key / region are the stored credential fields
rendered as JS template literals render them (`undefined` when absent). -/
def signAwsRequest (H : CryptoHash) (url : UrlParts) (method : String)
    (awsAccessKey awsSecretKey awsRegion : String) (awsService : Option String)
    (isoNow requestBody : String) : List (String × String) :=
  let service := resolveAwsService awsService
  let dateStamp := dateStampOf isoNow
  let amzDate := amzDateOf isoNow
  let canonicalUri := if url.pathname = "" then "/" else url.pathname
  let payloadHash := sha256 H requestBody
  let canonicalRequest := canonicalRequestOf H method canonicalUri url.search url.host amzDate requestBody
  let credentialScope := dateStamp ++ "/" ++ awsRegion ++ "/" ++ service ++ "/aws4_request"
  let stringToSign := stringToSignOf H amzDate credentialScope canonicalRequest
  let signingKey := getSignatureKey H awsSecretKey dateStamp awsRegion service
  let signature := hmacSha256 H stringToSign signingKey
  let authorizationHeader :=
    "AWS4-HMAC-SHA256" ++ " Credential=" ++ awsAccessKey ++ "/" ++ credentialScope ++
    ", SignedHeaders=" ++ "host;x-amz-content-sha256;x-amz-date" ++ ", Signature=" ++ signature
  [("Host", url.host), ("x-amz-date", amzDate), ("x-amz-content-sha256", payloadHash),
   ("Authorization", authorizationHeader), ("Content-Type", "application/json"),
   ("Accept", "application/json")]

/-! ### JS property access on credential records

The worker accesses fields on `session.credentials` without validating the
record's shape; a missing property reads as `undefined`, which a template
literal renders as the string `undefined`.  These accessors model that. -/

def Creds.tokenF : Creds → Option String
  | .bearer t => some t
  | _ => none

def Creds.oauthEndpointF : Creds → Option String
  | .oauth2 e _ _ _ => some e
  | _ => none

def Creds.clientIdF : Creds → Option String
  | .oauth2 _ cid _ _ => some cid
  | _ => none

def Creds.clientSecretF : Creds → Option String
  | .oauth2 _ _ cs _ => some cs
  | _ => none

def Creds.scopeF : Creds → Option String
  | .oauth2 _ _ _ sc => some sc
  | _ => none

def Creds.awsAccessKeyF : Creds → Option String
  | .sigv4 ak _ _ _ => some ak
  | _ => none

def Creds.awsSecretKeyF : Creds → Option String
  | .sigv4 _ sk _ _ => some sk
  | _ => none

def Creds.awsRegionF : Creds → Option String
  | .sigv4 _ _ rg _ => some rg
  | _ => none

def Creds.awsServiceF : Creds → Option String
  | .sigv4 _ _ _ sv => some sv
  | _ => none

/-! ### OAuth2 client-credentials exchange -/

/-- The token-exchange request issued by `getOAuth2Token`
(worker/index.ts:329-337): POST to the token endpoint with HTTP Basic
authentication and a `client_credentials` form body. -/
def oauthTokenRequest (oauthEndpoint clientId clientSecret scope : String) : HttpReq :=
  { url := oauthEndpoint
    method := "POST"
    headers := [("Content-Type", "application/x-www-form-urlencoded"),
                ("Authorization", "Basic " ++ jsBtoa (clientId ++ ":" ++ clientSecret))]
    body := "grant_type=client_credentials&scope=" ++ encodeURIComponent scope }

/-- Models `getOAuth2Token` (worker/index.ts:329): one fetch; on a non-2xx
response it throws (no retry); on success it reads `access_token` from the
JSON body.  The issued request is returned alongside for call-counting. -/
def getOAuth2Token (net : HttpReq → HttpResp)
    (oauthEndpoint clientId clientSecret scope : String) :
    Except String (Option String) × List HttpReq :=
  let req := oauthTokenRequest oauthEndpoint clientId clientSecret scope
  let response := net req
  if response.respOk then (.ok (lookupField response.jsonFields "access_token"), [req])
  else (.error ("OAuth2 token exchange failed: " ++ response.statusText), [req])

/-! ### Request proxy (models `handleIcebergProxy`, worker/index.ts:465-586) -/

/-- The `session.credentials.scope || 'PRINCIPAL_ROLE:ALL'` default. -/
def resolveScope : Option String → String
  | some s => if s = "" then "PRINCIPAL_ROLE:ALL" else s
  | none => "PRINCIPAL_ROLE:ALL"

/-- Outbound headers for a bearer session (worker/index.ts:499-504). -/
def bearerHeaders (creds : Creds) : List (String × String) :=
  [contentTypeJson, ("Accept", "application/json"),
   ("Authorization", "Bearer " ++ jsShow creds.tokenF)]

/-- The relayed client response built from the upstream response
(worker/index.ts:558-569): upstream status, statusText and body, an entirely
fresh header set `relayHeaders`. -/
def relayResponse (resp : HttpResp) : Response :=
  { status := resp.status, statusText := resp.statusText,
    headers := relayHeaders, body := resp.body }

/-- Models `handleIcebergProxy`: resolve the session, build auth headers per
scheme, forward to `session.endpoint + path + search`, relay status /
statusText / body with the fixed CORS headers.  Any exception (decryption
failure, JSON parse failure, OAuth exchange failure, URL failure, unknown
auth type) is caught and turned into the 502 `Proxy error` response.
Returns the response together with the list of outbound requests issued;
the analytics INSERTs (which do not touch the `sessions` table or the
response) are omitted. -/
def handleIcebergProxy (A : AEAD) (key : Bytes) (H : CryptoHash)
    (net : HttpReq → HttpResp) (E : EnvMsgs) (db : List SessionRow)
    (now : Nat) (isoNow : String) (method pathname search inBody : String)
    (sessionHeader : Option String) : Response × List HttpReq :=
  match sessionHeader with
  | none => (resp401MissingHeader, [])
  | some sid =>
    match getSession A key E db sid now with
    | .error e => (proxyErrorResponse e, [])
    | .ok none => (resp401Invalid, [])
    | .ok (some sess) =>
      let path := replaceFirst "/api/iceberg" pathname
      let targetUrl := sess.endpoint ++ path ++ search
      let requestBody := if method = "GET" ∨ method = "HEAD" then "" else inBody
      let headersAndLog : Except String (List (String × String)) × List HttpReq :=
        if sess.authType = "bearer" then
          (.ok (bearerHeaders sess.credentials), [])
        else if sess.authType = "oauth2" then
          match getOAuth2Token net (jsShow sess.credentials.oauthEndpointF)
              (jsShow sess.credentials.clientIdF) (jsShow sess.credentials.clientSecretF)
              (resolveScope sess.credentials.scopeF) with
          | (.ok accessToken, log) =>
            (.ok [contentTypeJson, ("Accept", "application/json"),
                  ("Authorization", "Bearer " ++ jsShow accessToken)], log)
          | (.error e, log) => (.error e, log)
        else if sess.authType = "sigv4" then
          match parseUrl targetUrl with
          | some url =>
            (.ok (signAwsRequest H url method (jsShow sess.credentials.awsAccessKeyF)
                (jsShow sess.credentials.awsSecretKeyF) (jsShow sess.credentials.awsRegionF)
                sess.credentials.awsServiceF isoNow requestBody), [])
          | none => (.error E.urlMsg, [])
        else (.error ("Unsupported auth type: " ++ sess.authType), [])
      match headersAndLog with
      | (.error e, log) => (proxyErrorResponse e, log)
      | (.ok headers, log) =>
        let proxyReq : HttpReq :=
          { url := targetUrl, method := method, headers := headers, body := requestBody }
        (relayResponse (net proxyReq), log ++ [proxyReq])

/-! ### Login (models `handleLogin`, worker/index.ts:144-293) -/

/-- The parsed JSON body of a login request; absent properties are `none`. -/
structure LoginBody where
  endpoint : Option String
  authType : Option String
  warehouse : Option String
  token : Option String
  oauthEndpoint : Option String
  clientId : Option String
  clientSecret : Option String
  oauthScope : Option String
  awsAccessKey : Option String
  awsSecretKey : Option String
  awsRegion : Option String
  awsService : Option String
deriving Repr

/-- JS truthiness of an optional string: `undefined` and the empty string
are falsy. -/
def falsyS : Option String → Bool
  | none => true
  | some s => s == ""

/-- A 400 validation response from `handleLogin`. -/
def resp400 (msg : String) : Response :=
  { status := 400, statusText := "", headers := [contentTypeJson],
    body := String.mk (lbrace :: (kv "error" msg ++ [rbrace])) }

/-- The 500 built by the catch-all of `handleLogin` (worker/index.ts:288-291). -/
def resp500Login (msg : String) : Response :=
  { status := 500, statusText := "", headers := [contentTypeJson],
    body := String.mk (lbrace :: (kv "error" "Login failed" ++ ',' :: kv "message" msg ++ [rbrace])) }

/-- The 200 login success response with body
`JSON.stringify({sessionId, expiresAt})` (worker/index.ts:268-277). -/
def loginOkResponse (sessionId : String) (expiresAt : Nat) : Response :=
  { status := 200, statusText := "",
    headers := [contentTypeJson, ("Access-Control-Allow-Origin", "*")],
    body := String.mk (lbrace :: (kv "sessionId" sessionId ++
      ',' :: '"' :: ("expiresAt".data ++ ['"', ':'] ++ (toString expiresAt).data) ++ [rbrace])) }

/-- The `warehouse || null` column value. -/
def resolveWarehouse (w : Option String) : Option String :=
  if falsyS w then none else w

/-- Models `handleLogin`.  `body = none` models a JSON parse failure of the
request body.  The random session id and AES-GCM nonce are parameters.  The
analytics INSERTs are omitted except for their one observable effect: the
success-path `new URL(endpoint)` call, which throws for an unparseable
endpoint and turns the response into the 500 catch-all — after the session
row was already inserted.  Validation-failure paths also call
`new URL(endpoint)` and are subject to the same conversion. -/
def handleLogin (A : AEAD) (key iv : Bytes) (E : EnvMsgs) (db : List SessionRow)
    (body : Option LoginBody) (sessionId : String) (now : Nat) :
    Response × List SessionRow :=
  match body with
  | none => (resp400 "Invalid JSON in request body", db)
  | some b =>
    if falsyS b.endpoint then (resp400 "Missing endpoint", db)
    else
      let endpoint := jsShow b.endpoint
      let urlOk := (parseUrl endpoint).isSome
      let authType := b.authType.getD "bearer"
      let fail : String → Response × List SessionRow := fun msg =>
        (if urlOk then resp400 msg else resp500Login E.urlMsg, db)
      let finish : Creds → Response × List SessionRow := fun creds =>
        let row := createSessionRow A key iv sessionId authType creds endpoint
          (resolveWarehouse b.warehouse) now
        (if urlOk then loginOkResponse sessionId (now + SESSION_DURATION)
         else resp500Login E.urlMsg, db ++ [row])
      if authType = "bearer" then
        if falsyS b.token then fail "Missing bearer token"
        else finish (.bearer (jsShow b.token))
      else if authType = "oauth2" then
        if falsyS b.clientId ∨ falsyS b.clientSecret then
          fail "Missing OAuth2 client ID or secret"
        else
          let effectiveOauthEndpoint :=
            if falsyS b.oauthEndpoint then endpoint ++ "/v1/oauth/tokens"
            else jsShow b.oauthEndpoint
          let effectiveScope :=
            if falsyS b.oauthScope then "PRINCIPAL_ROLE:ALL" else jsShow b.oauthScope
          finish (.oauth2 effectiveOauthEndpoint (jsShow b.clientId)
            (jsShow b.clientSecret) effectiveScope)
      else if authType = "sigv4" then
        if falsyS b.awsAccessKey ∨ falsyS b.awsSecretKey ∨ falsyS b.awsRegion then
          fail "Missing AWS credentials"
        else
          finish (.sigv4 (jsShow b.awsAccessKey) (jsShow b.awsSecretKey)
            (jsShow b.awsRegion) (resolveAwsService b.awsService))
      else finish .empty

/-! ## Theorems

Infrastructure lemmas first (round-trips of the byte-level codecs), then
one theorem per claim (with witnesses / counterexamples). -/

theorem b64Val_b64Char : ∀ n, n < 64 → b64Val (b64Char n) = some n := by decide

theorem b64Char_ne_pad : ∀ n, n < 64 → b64Char n ≠ '=' := by decide

theorem base64_roundtrip (bs : Bytes) (hb : ∀ b ∈ bs, b < 256) :
    base64ToBytes (bytesToBase64 bs) = some bs := by
  suffices H : ∀ n (bs : Bytes), bs.length ≤ n → (∀ b ∈ bs, b < 256) →
      base64ToBytes (bytesToBase64 bs) = some bs from H bs.length bs le_rfl hb
  intro n
  induction n with
  | zero =>
    intro bs hlen _
    have hnil : bs = [] := List.eq_nil_of_length_eq_zero (Nat.le_zero.mp hlen)
    subst hnil; rfl
  | succ n ih =>
    intro bs hlen hb
    rcases bs with _ | ⟨b0, _ | ⟨b1, _ | ⟨b2, rest⟩⟩⟩
    · rfl
    · have h0 : b0 < 256 := hb b0 (by simp)
      simp only [bytesToBase64, base64ToBytes]
      rw [b64Val_b64Char _ (by omega), b64Val_b64Char _ (by omega)]
      simp only [reduceCtorEq, and_self, if_true, reduceIte]
      rw [if_pos (by omega)]
      simp only [Option.some.injEq, List.cons.injEq, and_true]
      omega
    · have h0 : b0 < 256 := hb b0 (by simp)
      have h1 : b1 < 256 := hb b1 (by simp)
      simp only [bytesToBase64, base64ToBytes]
      rw [if_neg (b64Char_ne_pad _ (by omega))]
      simp only [reduceIte]
      rw [b64Val_b64Char _ (by omega), b64Val_b64Char _ (by omega),
        b64Val_b64Char _ (by omega)]
      simp only []
      rw [if_pos (by omega)]
      simp only [Option.some.injEq, List.cons.injEq, and_true]
      omega
    · have h0 : b0 < 256 := hb b0 (by simp)
      have h1 : b1 < 256 := hb b1 (by simp)
      have h2 : b2 < 256 := hb b2 (by simp)
      have hr : ∀ b ∈ rest, b < 256 := fun b hbm => hb b (by simp [hbm])
      have hlen2 : rest.length ≤ n := by
        simp only [List.length_cons] at hlen; omega
      have ihr := ih rest hlen2 hr
      simp only [bytesToBase64, base64ToBytes]
      rw [if_neg (b64Char_ne_pad _ (by omega)), if_neg (b64Char_ne_pad _ (by omega))]
      rw [b64Val_b64Char _ (by omega), b64Val_b64Char _ (by omega),
        b64Val_b64Char _ (by omega), b64Val_b64Char _ (by omega), ihr]
      simp only [Option.some.injEq, List.cons.injEq, and_true]
      refine ⟨by omega, by omega, by omega⟩

theorem bytesToBase64_injOn (bs1 bs2 : Bytes)
    (h1 : ∀ b ∈ bs1, b < 256) (h2 : ∀ b ∈ bs2, b < 256)
    (he : bytesToBase64 bs1 = bytesToBase64 bs2) : bs1 = bs2 := by
  have r1 := base64_roundtrip bs1 h1
  have r2 := base64_roundtrip bs2 h2
  rw [he, r2] at r1
  exact (Option.some.injEq _ _).mp r1.symm

theorem char_toNat_lt (c : Char) : c.toNat < 1114112 := by
  have h : c.val.toNat.isValidChar := c.valid
  rcases h with h | h
  · exact Nat.lt_trans h (by norm_num)
  · exact h.2

theorem utf8EncodeChar_lt (n : Nat) (hn : n < 1114112) :
    ∀ b ∈ utf8EncodeChar n, b < 256 := by
  intro b hb
  unfold utf8EncodeChar at hb
  split at hb
  · simp at hb; omega
  · split at hb
    · simp at hb; rcases hb with hb | hb <;> omega
    · split at hb
      · simp at hb; rcases hb with hb | hb | hb <;> omega
      · simp at hb; rcases hb with hb | hb | hb | hb <;> omega

theorem utf8Encode_lt (s : List Char) : ∀ b ∈ utf8Encode s, b < 256 := by
  intro b hb
  simp only [utf8Encode, List.mem_flatten, List.mem_map] at hb
  rcases hb with ⟨l, ⟨c, hc, hl⟩, hbl⟩
  exact utf8EncodeChar_lt c.toNat (char_toNat_lt c) b (hl ▸ hbl)

theorem utf8EncodeChar_ne_nil (n : Nat) : utf8EncodeChar n ≠ [] := by
  unfold utf8EncodeChar
  split
  · simp
  · split
    · simp
    · split <;> simp

theorem utf8DecodeChar_enc (n : Nat) (hn : n < 1114112) (rest : List Nat) :
    utf8DecodeChar (utf8EncodeChar n ++ rest) = some (n, rest) := by
  unfold utf8EncodeChar
  by_cases hc1 : n < 128
  · simp only [hc1, if_true, List.cons_append, List.nil_append, utf8DecodeChar, reduceIte]
  · by_cases hc2 : n < 2048
    · simp only [hc1, hc2, if_true, if_false, List.cons_append, List.nil_append, utf8DecodeChar]
      rw [if_neg (by omega), if_neg (by omega), if_pos (by omega), if_pos (by omega)]
      simp only [Option.some.injEq, Prod.mk.injEq, and_true]
      omega
    · by_cases hc3 : n < 65536
      · simp only [hc1, hc2, hc3, if_true, if_false, List.cons_append, List.nil_append,
          utf8DecodeChar]
        rw [if_neg (by omega), if_neg (by omega), if_neg (by omega), if_pos (by omega),
          if_pos (by constructor <;> constructor <;> omega)]
        simp only [Option.some.injEq, Prod.mk.injEq, and_true]
        omega
      · simp only [hc1, hc2, hc3, if_false, List.cons_append, List.nil_append, utf8DecodeChar]
        rw [if_neg (by omega), if_neg (by omega), if_neg (by omega), if_neg (by omega),
          if_pos (by omega),
          if_pos (by refine ⟨⟨by omega, by omega⟩, ⟨by omega, by omega⟩, by omega, by omega⟩)]
        simp only [Option.some.injEq, Prod.mk.injEq, and_true]
        omega

theorem utf8DecodeAux_enc : ∀ (s : List Char) (fuel : Nat),
    (utf8Encode s).length ≤ fuel → utf8DecodeAux fuel (utf8Encode s) = some s := by
  intro s
  induction s with
  | nil => intro fuel _; cases fuel <;> rfl
  | cons c cs ih =>
    intro fuel hlen
    have henc : utf8Encode (c :: cs) = utf8EncodeChar c.toNat ++ utf8Encode cs := by
      simp [utf8Encode]
    rw [henc] at hlen ⊢
    have hne : utf8EncodeChar c.toNat ≠ [] := utf8EncodeChar_ne_nil c.toNat
    have hlen1 : 1 ≤ (utf8EncodeChar c.toNat).length := by
      cases hh : utf8EncodeChar c.toNat with
      | nil => exact absurd hh hne
      | cons x xs => simp
    rcases fuel with _ | fuel
    · exfalso
      rw [List.length_append] at hlen
      omega
    · cases hh : utf8EncodeChar c.toNat ++ utf8Encode cs with
      | nil =>
        exfalso
        rcases List.append_eq_nil.mp hh with ⟨hh1, _⟩
        exact hne hh1
      | cons x xs =>
        rw [← hh]
        have hstep := utf8DecodeChar_enc c.toNat (char_toNat_lt c) (utf8Encode cs)
        have hfuel : (utf8Encode cs).length ≤ fuel := by
          rw [List.length_append] at hlen
          omega
        calc utf8DecodeAux (fuel + 1) (utf8EncodeChar c.toNat ++ utf8Encode cs)
            = (utf8DecodeAux fuel (utf8Encode cs)).map (fun l => Char.ofNat c.toNat :: l) := by
              rw [hh]
              simp only [utf8DecodeAux]
              rw [← hh, hstep]
          _ = some (c :: cs) := by
              rw [ih fuel hfuel]
              simp [Char.ofNat_toNat]

theorem utf8_roundtrip (s : List Char) : utf8Decode (utf8Encode s) = some s :=
  utf8DecodeAux_enc s (utf8Encode s).length le_rfl

theorem string_data_mk (l : List Char) : (String.mk l).data = l := rfl

theorem string_mk_data (s : String) : String.mk s.data = s := rfl

/-- The authenticated-encryption round-trip of the credential codec:
decrypting what `encryptToken` produced under the same key recovers the
token. -/
theorem decryptToken_encryptToken (A : AEAD) (key iv : Bytes) (t : String)
    (hlen : iv.length = 12) (hiv : ∀ b ∈ iv, b < 256) :
    decryptToken A key (encryptToken A key iv t) = some t := by
  unfold encryptToken decryptToken
  have hbytes : ∀ b ∈ iv ++ A.enc key iv (utf8Encode t.data), b < 256 := by
    intro b hb
    rcases List.mem_append.mp hb with hb | hb
    · exact hiv b hb
    · exact A.enc_bytes key iv _ (utf8Encode_lt t.data) b hb
  rw [string_data_mk, base64_roundtrip _ hbytes, Option.some_bind]
  have htake : (iv ++ A.enc key iv (utf8Encode t.data)).take 12 = iv := by
    rw [← hlen]; exact List.take_left iv _
  have hdrop : (iv ++ A.enc key iv (utf8Encode t.data)).drop 12 = A.enc key iv (utf8Encode t.data) := by
    rw [← hlen]; exact List.drop_left iv _
  rw [htake, hdrop, A.dec_enc, Option.some_bind, utf8_roundtrip, Option.map_some',
    string_mk_data]

theorem hexVal_hexLowerDigit : ∀ n, n < 16 → hexVal (hexLowerDigit n) = some n := by decide

theorem pjsQuote (r : List Char) : parseJsonStr ('"' :: r) = some ([], r) := by
  rw [parseJsonStr.eq_def]; simp

theorem pjsPlain (c : Char) (h1 : c ≠ '"') (h2 : c ≠ '\\') (r : List Char) :
    parseJsonStr (c :: r) = mapConsChar c (parseJsonStr r) := by
  rw [parseJsonStr.eq_def]; simp [h1, h2]

theorem pjsEscQuote (r : List Char) :
    parseJsonStr ('\\' :: '"' :: r) = mapConsChar '"' (parseJsonStr r) := by
  rw [parseJsonStr.eq_def]; simp

theorem pjsEscBack (r : List Char) :
    parseJsonStr ('\\' :: '\\' :: r) = mapConsChar '\\' (parseJsonStr r) := by
  rw [parseJsonStr.eq_def]; simp

theorem pjsEscB (r : List Char) :
    parseJsonStr ('\\' :: 'b' :: r) = mapConsChar (Char.ofNat 8) (parseJsonStr r) := by
  rw [parseJsonStr.eq_def]; simp

theorem pjsEscT (r : List Char) :
    parseJsonStr ('\\' :: 't' :: r) = mapConsChar (Char.ofNat 9) (parseJsonStr r) := by
  rw [parseJsonStr.eq_def]; simp

theorem pjsEscN (r : List Char) :
    parseJsonStr ('\\' :: 'n' :: r) = mapConsChar (Char.ofNat 10) (parseJsonStr r) := by
  rw [parseJsonStr.eq_def]; simp

theorem pjsEscF (r : List Char) :
    parseJsonStr ('\\' :: 'f' :: r) = mapConsChar (Char.ofNat 12) (parseJsonStr r) := by
  rw [parseJsonStr.eq_def]; simp

theorem pjsEscR (r : List Char) :
    parseJsonStr ('\\' :: 'r' :: r) = mapConsChar (Char.ofNat 13) (parseJsonStr r) := by
  rw [parseJsonStr.eq_def]; simp

theorem pjsEscU (d1 d2 d3 d4 : Char) (a b c2 d : Nat) (r : List Char)
    (hv1 : hexVal d1 = some a) (hv2 : hexVal d2 = some b)
    (hv3 : hexVal d3 = some c2) (hv4 : hexVal d4 = some d) :
    parseJsonStr ('\\' :: 'u' :: d1 :: d2 :: d3 :: d4 :: r)
      = mapConsChar (Char.ofNat (a * 4096 + b * 256 + c2 * 16 + d)) (parseJsonStr r) := by
  rw [parseJsonStr.eq_def]
  simp [hv1, hv2, hv3, hv4]

/-- Unescaping inverts the `JSON.stringify` escaping of a string body. -/
theorem parseJsonStr_escape (s : List Char) (rest : List Char) :
    parseJsonStr ((s.map jsonEscapeChar).flatten ++ '"' :: rest) = some (s, rest) := by
  induction s with
  | nil => simpa using pjsQuote rest
  | cons c cs ih =>
    have hsplit : (((c :: cs).map jsonEscapeChar).flatten ++ '"' :: rest)
        = jsonEscapeChar c ++ ((cs.map jsonEscapeChar).flatten ++ '"' :: rest) := by
      simp
    rw [hsplit]
    by_cases h1 : c = '"'
    · rw [show jsonEscapeChar c = ['\\', '"'] from by simp [jsonEscapeChar, h1]]
      simp only [List.cons_append, List.nil_append, pjsEscQuote, ih, mapConsChar,
        Option.map_some']
      rw [h1]
    · by_cases h2 : c = '\\'
      · rw [show jsonEscapeChar c = ['\\', '\\'] from by simp [jsonEscapeChar, h1, h2]]
        simp only [List.cons_append, List.nil_append, pjsEscBack, ih, mapConsChar,
          Option.map_some']
        rw [h2]
      · by_cases h3 : c.toNat = 8
        · have hc : Char.ofNat 8 = c := by rw [← h3, Char.ofNat_toNat]
          rw [show jsonEscapeChar c = ['\\', 'b'] from by simp [jsonEscapeChar, h1, h2, h3]]
          simp only [List.cons_append, List.nil_append, pjsEscB, ih, mapConsChar,
            Option.map_some', hc]
        · by_cases h4 : c.toNat = 9
          · have hc : Char.ofNat 9 = c := by rw [← h4, Char.ofNat_toNat]
            rw [show jsonEscapeChar c = ['\\', 't'] from by
              simp [jsonEscapeChar, h1, h2, h3, h4]]
            simp only [List.cons_append, List.nil_append, pjsEscT, ih, mapConsChar,
              Option.map_some', hc]
          · by_cases h5 : c.toNat = 10
            · have hc : Char.ofNat 10 = c := by rw [← h5, Char.ofNat_toNat]
              rw [show jsonEscapeChar c = ['\\', 'n'] from by
                simp [jsonEscapeChar, h1, h2, h3, h4, h5]]
              simp only [List.cons_append, List.nil_append, pjsEscN, ih, mapConsChar,
                Option.map_some', hc]
            · by_cases h6 : c.toNat = 12
              · have hc : Char.ofNat 12 = c := by rw [← h6, Char.ofNat_toNat]
                rw [show jsonEscapeChar c = ['\\', 'f'] from by
                  simp [jsonEscapeChar, h1, h2, h3, h4, h5, h6]]
                simp only [List.cons_append, List.nil_append, pjsEscF, ih, mapConsChar,
                  Option.map_some', hc]
              · by_cases h7 : c.toNat = 13
                · have hc : Char.ofNat 13 = c := by rw [← h7, Char.ofNat_toNat]
                  rw [show jsonEscapeChar c = ['\\', 'r'] from by
                    simp [jsonEscapeChar, h1, h2, h3, h4, h5, h6, h7]]
                  simp only [List.cons_append, List.nil_append, pjsEscR, ih, mapConsChar,
                    Option.map_some', hc]
                · by_cases h8 : c.toNat < 32
                  · have hd1 := hexVal_hexLowerDigit (c.toNat / 16) (by omega)
                    have hd2 := hexVal_hexLowerDigit (c.toNat % 16) (by omega)
                    have hc : Char.ofNat (0 * 4096 + 0 * 256 + c.toNat / 16 * 16 + c.toNat % 16)
                        = c := by
                      rw [show 0 * 4096 + 0 * 256 + c.toNat / 16 * 16 + c.toNat % 16 = c.toNat
                        from by omega, Char.ofNat_toNat]
                    rw [show jsonEscapeChar c
                        = ['\\', 'u', '0', '0', hexLowerDigit (c.toNat / 16),
                           hexLowerDigit (c.toNat % 16)] from by
                      simp [jsonEscapeChar, h1, h2, h3, h4, h5, h6, h7, h8]]
                    simp only [List.cons_append, List.nil_append]
                    rw [pjsEscU _ _ _ _ 0 0 (c.toNat / 16) (c.toNat % 16) _ (by decide)
                      (by decide) hd1 hd2]
                    simp only [ih, mapConsChar, Option.map_some', hc]
                  · rw [show jsonEscapeChar c = [c] from by
                      simp [jsonEscapeChar, h1, h2, h3, h4, h5, h6, h7, h8]]
                    simp only [List.cons_append, List.nil_append]
                    rw [pjsPlain c h1 h2]
                    simp only [ih, mapConsChar, Option.map_some']

theorem expectChars_self : ∀ (p rest : List Char), expectChars p (p ++ rest) = some rest := by
  intro p
  induction p with
  | nil => intro rest; rfl
  | cons c cs ih => intro rest; simp [expectChars, ih]

/-- `parseMember` inverts `kv`. -/
theorem parseMember_kv (k v : String) (rest : List Char) :
    parseMember k (kv k v ++ rest) = some (v, rest) := by
  unfold parseMember kv jsonQuote
  have harr : ('"' :: (k.data ++ ['"', ':'] ++ ('"' :: ((v.data.map jsonEscapeChar).flatten ++ ['"'])))) ++ rest
      = ('"' :: (k.data ++ ['"', ':', '"'])) ++ ((v.data.map jsonEscapeChar).flatten ++ '"' :: rest) := by
    simp
  rw [harr, expectChars_self]
  simp [parseJsonStr_escape]

theorem kv_append_ne_single (k v : String) (x : List Char) (c : Char) :
    kv k v ++ x ≠ [c] := by
  intro h
  have hlen := congrArg List.length h
  simp [kv, jsonQuote] at hlen

/-- `parseCreds` inverts `stringifyCreds` on every credential record shape. -/
theorem parseCreds_stringify (c : Creds) : parseCreds (stringifyCreds c) = some c := by
  cases c with
  | empty => rfl
  | bearer t =>
    simp only [stringifyCreds, parseCreds, string_data_mk, eq_self_iff_true, if_true]
    rw [if_neg (kv_append_ne_single _ _ _ _), parseMember_kv]
    simp
  | oauth2 e cid cs sc =>
    simp only [stringifyCreds, parseCreds, string_data_mk, eq_self_iff_true, if_true]
    rw [if_neg (kv_append_ne_single "oauthEndpoint" e
      (',' :: (kv "clientId" cid ++ (',' :: (kv "clientSecret" cs ++
        (',' :: (kv "scope" sc ++ [rbrace])))))) rbrace)]
    rw [show parseMember "token"
        (kv "oauthEndpoint" e ++ (',' :: (kv "clientId" cid ++ (',' :: (kv "clientSecret" cs ++
          (',' :: (kv "scope" sc ++ [rbrace]))))))) = none from by
      simp [parseMember, kv, expectChars]]
    rw [parseMember_kv]
    simp [parseMember_kv, expectChars]
  | sigv4 ak sk rg sv =>
    simp only [stringifyCreds, parseCreds, string_data_mk, eq_self_iff_true, if_true]
    rw [if_neg (kv_append_ne_single "awsAccessKey" ak
      (',' :: (kv "awsSecretKey" sk ++ (',' :: (kv "awsRegion" rg ++
        (',' :: (kv "awsService" sv ++ [rbrace])))))) rbrace)]
    rw [show parseMember "token"
        (kv "awsAccessKey" ak ++ (',' :: (kv "awsSecretKey" sk ++ (',' :: (kv "awsRegion" rg ++
          (',' :: (kv "awsService" sv ++ [rbrace]))))))) = none from by
      simp [parseMember, kv, expectChars]]
    rw [show parseMember "oauthEndpoint"
        (kv "awsAccessKey" ak ++ (',' :: (kv "awsSecretKey" sk ++ (',' :: (kv "awsRegion" rg ++
          (',' :: (kv "awsService" sv ++ [rbrace]))))))) = none from by
      simp [parseMember, kv, expectChars]]
    rw [parseMember_kv]
    simp [parseMember_kv, expectChars]

theorem find?_append_of_none {α : Type} (l1 l2 : List α) (p : α → Bool)
    (h : ∀ x ∈ l1, p x = false) : (l1 ++ l2).find? p = l2.find? p := by
  induction l1 with
  | nil => rfl
  | cons a as ih =>
    have ha : p a = false := h a (List.mem_cons_self a as)
    simp only [List.cons_append, List.find?, ha, cond_false]
    exact ih (fun x hx => h x (List.mem_cons_of_mem a hx))

/-- Auxiliary: `getSession` on a database extended with a freshly created
row finds that row and round-trips its credentials. -/
theorem getSession_created (A : AEAD) (key iv : Bytes) (E : EnvMsgs)
    (db : List SessionRow) (sid authType : String) (creds : Creds)
    (endpoint : String) (warehouse : Option String) (now t : Nat)
    (hivlen : iv.length = 12) (hiv : ∀ b ∈ iv, b < 256)
    (hfresh : ∀ r ∈ db, r.session_id ≠ sid)
    (ht : t < now + SESSION_DURATION) :
    getSession A key E
        (db ++ [createSessionRow A key iv sid authType creds endpoint warehouse now]) sid t
      = .ok (some { sessionId := sid, authType := authType, credentials := creds,
                    endpoint := endpoint, warehouse := warehouse }) := by
  unfold getSession
  have hnone : ∀ r ∈ db, sessionRowMatch sid t r = false := by
    intro r hr
    simp [sessionRowMatch, hfresh r hr]
  rw [find?_append_of_none _ _ _ hnone]
  have hmatch : sessionRowMatch sid t (createSessionRow A key iv sid authType creds endpoint warehouse now) = true := by
    simp [sessionRowMatch, createSessionRow, ht]
  simp only [List.find?, hmatch, cond_true]
  simp only [createSessionRow]
  rw [decryptToken_encryptToken A key iv _ hivlen hiv]
  simp [parseCreds_stringify]

/-- Auxiliary: `getSession` when the live row is found and its stored blob
decrypts to a serialized credential record. -/
theorem getSession_found (A : AEAD) (key : Bytes) (E : EnvMsgs)
    (db : List SessionRow) (sid : String) (now : Nat) (r : SessionRow) (c : Creds)
    (hfind : db.find? (sessionRowMatch sid now) = some r)
    (hdec : decryptToken A key r.encrypted_credentials = some (stringifyCreds c)) :
    getSession A key E db sid now
      = .ok (some { sessionId := r.session_id, authType := r.auth_type,
                    credentials := c, endpoint := r.endpoint, warehouse := r.warehouse }) := by
  unfold getSession
  rw [hfind]
  simp [hdec, parseCreds_stringify]

/-- C1: for every auth scheme and every credential record, a session created
at login (credentials JSON-serialized, AES-GCM-encrypted under a fresh
12-byte nonce, base64-stored) and then fetched by `getSession` before its
expiry yields a credentials object equal to the one supplied at creation. -/
theorem c1_session_roundtrip (A : AEAD) (key iv : Bytes) (E : EnvMsgs)
    (db : List SessionRow) (sid authType : String) (creds : Creds)
    (endpoint : String) (warehouse : Option String) (now t : Nat)
    (hivlen : iv.length = 12) (hiv : ∀ b ∈ iv, b < 256)
    (hfresh : ∀ r ∈ db, r.session_id ≠ sid)
    (ht : t < now + SESSION_DURATION) :
    getSession A key E
        (db ++ [createSessionRow A key iv sid authType creds endpoint warehouse now]) sid t
      = .ok (some { sessionId := sid, authType := authType, credentials := creds,
                    endpoint := endpoint, warehouse := warehouse }) :=
  getSession_created A key iv E db sid authType creds endpoint warehouse now t
    hivlen hiv hfresh ht

/-- Witness for C1 at a concrete input (mock AEAD, bearer credentials). -/
theorem c1_session_roundtrip_witness :
    ([0, 1, 2, 3, 4, 5, 6, 7, 8, 9, 10, 11] : Bytes).length = 12 ∧
    (∀ b ∈ ([0, 1, 2, 3, 4, 5, 6, 7, 8, 9, 10, 11] : Bytes), b < 256) ∧
    (∀ r ∈ ([] : List SessionRow), r.session_id ≠ "sid1") ∧
    (5 : Nat) < 0 + SESSION_DURATION ∧
    getSession mockAead [7] ⟨"dm", "pm", "um"⟩
        ([] ++ [createSessionRow mockAead [7] [0, 1, 2, 3, 4, 5, 6, 7, 8, 9, 10, 11]
          "sid1" "bearer" (Creds.bearer "tok") "https://h" none 0]) "sid1" 5
      = .ok (some { sessionId := "sid1", authType := "bearer",
                    credentials := Creds.bearer "tok", endpoint := "https://h",
                    warehouse := none }) :=
  ⟨by decide, by decide, by simp, by decide,
   c1_session_roundtrip mockAead [7] [0, 1, 2, 3, 4, 5, 6, 7, 8, 9, 10, 11] ⟨"dm", "pm", "um"⟩
     [] "sid1" "bearer" (Creds.bearer "tok") "https://h" none 0 5
     (by decide) (by decide) (by simp) (by decide)⟩

/-- C2 (code bug): the canonical query string built by the signer is NOT
byte-order sorted.  The code sorts with `localeCompare` (ICU root collation,
which orders `a` before `B`), while the claim (and AWS SigV4) requires byte
(code point) order (under which `B` precedes `a`).  At the concrete query
`?B=1&a=2` the code produces `a=2&B=1` while the byte-order canonical form
is `B=1&a=2`. -/
theorem c2_localeCompare_not_byte_order :
    sortedCanonicalQuery "?B=1&a=2" = "a=2&B=1" ∧
    specCanonicalQuery "?B=1&a=2" = "B=1&a=2" ∧
    sortedCanonicalQuery "?B=1&a=2" ≠ specCanonicalQuery "?B=1&a=2" := by
  refine ⟨by decide, by decide, by decide⟩

theorem hexLowerDigit_mem : ∀ d, d < 16 → hexLowerDigit d ∈ "0123456789abcdef".data := by
  decide

theorem toHexStr_lowercase (bs : Bytes) (hb : ∀ b ∈ bs, b < 256) :
    ∀ ch ∈ (toHexStr bs).data, ch ∈ "0123456789abcdef".data := by
  intro ch hch
  simp only [toHexStr, string_data_mk, List.mem_flatten, List.mem_map] at hch
  rcases hch with ⟨l, ⟨b, hbmem, hl⟩, hchl⟩
  have hb2 : b < 256 := hb b hbmem
  rw [← hl] at hchl
  simp only [byteToHex, List.mem_cons, List.mem_singleton] at hchl
  rcases hchl with h | h | h
  · exact h ▸ hexLowerDigit_mem (b / 16) (by omega)
  · exact h ▸ hexLowerDigit_mem (b % 16) (by omega)
  · exact absurd h (by simp)

/-- C3: the SigV4 signing key equals the 4-step HMAC-SHA256 chain
`HMAC(HMAC(HMAC(HMAC("AWS4"+secretKey, dateStamp), region), service),
"aws4_request")`, and the `Authorization` header built by `signAwsRequest`
carries exactly the lowercase-hex HMAC-SHA256 of the string-to-sign under
that derived key. -/
theorem c3_sigv4_signature (H : CryptoHash) (url : UrlParts) (method : String)
    (accessKey secretKey region : String) (serviceOpt : Option String)
    (isoNow requestBody : String) :
    getSignatureKey H secretKey (dateStampOf isoNow) region (resolveAwsService serviceOpt)
      = H.hmacShaRaw (H.hmacShaRaw (H.hmacShaRaw (H.hmacShaRaw
          (utf8Encode ("AWS4" ++ secretKey).data) (utf8Encode (dateStampOf isoNow).data))
          (utf8Encode region.data)) (utf8Encode (resolveAwsService serviceOpt).data))
        (utf8Encode "aws4_request".data) ∧
    lookupField (signAwsRequest H url method accessKey secretKey region serviceOpt isoNow requestBody)
        "Authorization"
      = some ("AWS4-HMAC-SHA256" ++ " Credential=" ++ accessKey ++ "/" ++
          (dateStampOf isoNow ++ "/" ++ region ++ "/" ++ resolveAwsService serviceOpt ++
            "/aws4_request") ++
          ", SignedHeaders=" ++ "host;x-amz-content-sha256;x-amz-date" ++ ", Signature=" ++
          toHexStr (H.hmacShaRaw
            (getSignatureKey H secretKey (dateStampOf isoNow) region (resolveAwsService serviceOpt))
            (utf8Encode (stringToSignOf H (amzDateOf isoNow)
              (dateStampOf isoNow ++ "/" ++ region ++ "/" ++ resolveAwsService serviceOpt ++
                "/aws4_request")
              (canonicalRequestOf H method (if url.pathname = "" then "/" else url.pathname)
                url.search url.host (amzDateOf isoNow) requestBody)).data))) ∧
    ∀ ch ∈ (toHexStr (H.hmacShaRaw
            (getSignatureKey H secretKey (dateStampOf isoNow) region (resolveAwsService serviceOpt))
            (utf8Encode (stringToSignOf H (amzDateOf isoNow)
              (dateStampOf isoNow ++ "/" ++ region ++ "/" ++ resolveAwsService serviceOpt ++
                "/aws4_request")
              (canonicalRequestOf H method (if url.pathname = "" then "/" else url.pathname)
                url.search url.host (amzDateOf isoNow) requestBody)).data))).data,
      ch ∈ "0123456789abcdef".data := by
  refine ⟨rfl, rfl, toHexStr_lowercase _ (H.hmac_bytes _ _)⟩

/-- Auxiliary: `getSession` throws (models the propagated exception) when
the live row's stored blob fails to decrypt. -/
theorem getSession_decrypt_error (A : AEAD) (key : Bytes) (E : EnvMsgs)
    (db : List SessionRow) (sid : String) (now : Nat) (r : SessionRow)
    (hfind : db.find? (sessionRowMatch sid now) = some r)
    (hdec : decryptToken A key r.encrypted_credentials = none) :
    getSession A key E db sid now = .error E.decryptMsg := by
  unfold getSession
  rw [hfind]
  simp [hdec]

/-- C4 (amended): a proxied request whose stored credentials fail to decrypt
is answered with the generic 502 `Proxy error` response carrying the
host-thrown error message — the `handleIcebergProxy` catch-all — and not
with the 401 `Invalid or expired session` response that unknown/expired
sessions receive; no upstream request is issued. -/
theorem c4_decrypt_failure_is_502 (A : AEAD) (key : Bytes) (H : CryptoHash)
    (net : HttpReq → HttpResp) (E : EnvMsgs) (db : List SessionRow)
    (now : Nat) (isoNow method pathname search inBody sid : String) (r : SessionRow)
    (hfind : db.find? (sessionRowMatch sid now) = some r)
    (hdec : decryptToken A key r.encrypted_credentials = none) :
    handleIcebergProxy A key H net E db now isoNow method pathname search inBody (some sid)
      = (proxyErrorResponse E.decryptMsg, []) ∧
    (proxyErrorResponse E.decryptMsg).status = 502 ∧
    proxyErrorResponse E.decryptMsg ≠ resp401Invalid := by
  refine ⟨?_, rfl, ?_⟩
  · simp only [handleIcebergProxy, getSession_decrypt_error A key E db sid now r hfind hdec]
  · intro h
    have hst := congrArg Response.status h
    simp [proxyErrorResponse, resp401Invalid] at hst

/-- C4 counterexample: at a concrete session whose stored ciphertext fails
authentication, the client receives status 502, not the 401 invalid-session
response the claim asserts. -/
theorem c4_counterexample :
    (handleIcebergProxy mockAead [7] mockHash (fun _ => ⟨200, "OK", "", []⟩)
        ⟨"dm", "pm", "um"⟩
        [⟨"s", "bearer", String.mk (bytesToBase64 [0, 0, 0, 0, 0, 0, 0, 0, 0, 0, 0, 0, 0]),
          "https://h", none, 0, 10, 0⟩]
        5 "2026-01-01T00:00:00.000Z" "GET" "/api/iceberg/v1/config" "" "" (some "s")).1.status
      = 502 ∧
    (handleIcebergProxy mockAead [7] mockHash (fun _ => ⟨200, "OK", "", []⟩)
        ⟨"dm", "pm", "um"⟩
        [⟨"s", "bearer", String.mk (bytesToBase64 [0, 0, 0, 0, 0, 0, 0, 0, 0, 0, 0, 0, 0]),
          "https://h", none, 0, 10, 0⟩]
        5 "2026-01-01T00:00:00.000Z" "GET" "/api/iceberg/v1/config" "" "" (some "s")).1
      ≠ resp401Invalid := by
  refine ⟨by decide, by decide⟩

/-- Witness for C4's amended theorem at a concrete input. -/
theorem c4_decrypt_failure_is_502_witness :
    ([(⟨"s", "bearer", String.mk (bytesToBase64 [0, 0, 0, 0, 0, 0, 0, 0, 0, 0, 0, 0, 2]),
        "https://h", none, 0, 10, 0⟩ : SessionRow)].find? (sessionRowMatch "s" 5)
        = some ⟨"s", "bearer", String.mk (bytesToBase64 [0, 0, 0, 0, 0, 0, 0, 0, 0, 0, 0, 0, 2]),
          "https://h", none, 0, 10, 0⟩ ∧
      decryptToken mockAead [7]
        (String.mk (bytesToBase64 [0, 0, 0, 0, 0, 0, 0, 0, 0, 0, 0, 0, 2])) = none) ∧
    (handleIcebergProxy mockAead [7] mockHash (fun _ => ⟨200, "OK", "", []⟩)
        ⟨"dmsg", "pmsg", "umsg"⟩
        [⟨"s", "bearer", String.mk (bytesToBase64 [0, 0, 0, 0, 0, 0, 0, 0, 0, 0, 0, 0, 2]),
          "https://h", none, 0, 10, 0⟩]
        5 "2026-01-01T00:00:00.000Z" "GET" "/api/iceberg/v1/config" "" "" (some "s")
      = (proxyErrorResponse "dmsg", []) ∧
    (proxyErrorResponse "dmsg").status = 502 ∧
    proxyErrorResponse "dmsg" ≠ resp401Invalid) :=
  ⟨⟨by decide, by decide⟩,
   c4_decrypt_failure_is_502 mockAead [7] mockHash (fun _ => ⟨200, "OK", "", []⟩)
     ⟨"dmsg", "pmsg", "umsg"⟩
     [⟨"s", "bearer", String.mk (bytesToBase64 [0, 0, 0, 0, 0, 0, 0, 0, 0, 0, 0, 0, 2]),
       "https://h", none, 0, 10, 0⟩]
     5 "2026-01-01T00:00:00.000Z" "GET" "/api/iceberg/v1/config" "" "" "s"
     ⟨"s", "bearer", String.mk (bytesToBase64 [0, 0, 0, 0, 0, 0, 0, 0, 0, 0, 0, 0, 2]),
       "https://h", none, 0, 10, 0⟩
     (by decide) (by decide)⟩

/-- C5 (amended): the auth strategy resolver performs no shape validation.
A session tagged `bearer` whose decrypted record has no `token` field is NOT
rejected: the proxy builds `Authorization: Bearer undefined` from the
mismatched record (JS `undefined` rendering) and forwards the request
upstream. -/
theorem c5_no_shape_validation (A : AEAD) (key : Bytes) (H : CryptoHash)
    (net : HttpReq → HttpResp) (E : EnvMsgs) (db : List SessionRow)
    (now : Nat) (isoNow method pathname search inBody sid : String)
    (r : SessionRow) (c : Creds)
    (hfind : db.find? (sessionRowMatch sid now) = some r)
    (hdec : decryptToken A key r.encrypted_credentials = some (stringifyCreds c))
    (hauth : r.auth_type = "bearer")
    (htok : c.tokenF = none) :
    bearerHeaders c = [contentTypeJson, ("Accept", "application/json"),
                       ("Authorization", "Bearer undefined")] ∧
    handleIcebergProxy A key H net E db now isoNow method pathname search inBody (some sid)
      = (let req : HttpReq :=
           { url := r.endpoint ++ replaceFirst "/api/iceberg" pathname ++ search
             method := method
             headers := bearerHeaders c
             body := if method = "GET" ∨ method = "HEAD" then "" else inBody }
         ({ status := (net req).status, statusText := (net req).statusText,
            headers := relayHeaders, body := (net req).body }, [req])) := by
  constructor
  · unfold bearerHeaders
    rw [htok]
    rfl
  · simp only [handleIcebergProxy, getSession_found A key E db sid now r c hfind hdec, hauth,
      reduceIte]
    rfl

/-- C5 counterexample: a concrete bearer-tagged session storing the empty
record produces a forwarded request with `Authorization: Bearer undefined`
and relays the upstream 200 — no rejection occurs, contradicting the claim. -/
theorem c5_counterexample :
    (handleIcebergProxy mockAead [7] mockHash (fun _ => ⟨200, "OK", "upstream", []⟩)
        ⟨"dm", "pm", "um"⟩
        [⟨"s", "bearer",
          encryptToken mockAead [7] [0, 0, 0, 0, 0, 0, 0, 0, 0, 0, 0, 0]
            (stringifyCreds Creds.empty),
          "https://h", none, 0, 10, 0⟩]
        5 "2026-01-01T00:00:00.000Z" "GET" "/api/iceberg/v1/config" "" "" (some "s")).2
      = [{ url := "https://h/v1/config", method := "GET",
           headers := [contentTypeJson, ("Accept", "application/json"),
                       ("Authorization", "Bearer undefined")],
           body := "" }] ∧
    (handleIcebergProxy mockAead [7] mockHash (fun _ => ⟨200, "OK", "upstream", []⟩)
        ⟨"dm", "pm", "um"⟩
        [⟨"s", "bearer",
          encryptToken mockAead [7] [0, 0, 0, 0, 0, 0, 0, 0, 0, 0, 0, 0]
            (stringifyCreds Creds.empty),
          "https://h", none, 0, 10, 0⟩]
        5 "2026-01-01T00:00:00.000Z" "GET" "/api/iceberg/v1/config" "" "" (some "s")).1.status
      = 200 := by
  refine ⟨by decide, by decide⟩

/-- Witness for C5's amended theorem at a concrete input. -/
theorem c5_no_shape_validation_witness :
    (([(⟨"s", "bearer",
          encryptToken mockAead [7] [0, 0, 0, 0, 0, 0, 0, 0, 0, 0, 0, 0]
            (stringifyCreds Creds.empty), "https://h", none, 0, 10, 0⟩ : SessionRow)].find?
          (sessionRowMatch "s" 5)
        = some ⟨"s", "bearer",
            encryptToken mockAead [7] [0, 0, 0, 0, 0, 0, 0, 0, 0, 0, 0, 0]
              (stringifyCreds Creds.empty), "https://h", none, 0, 10, 0⟩) ∧
      decryptToken mockAead [7]
          (encryptToken mockAead [7] [0, 0, 0, 0, 0, 0, 0, 0, 0, 0, 0, 0]
            (stringifyCreds Creds.empty))
        = some (stringifyCreds Creds.empty) ∧
      Creds.empty.tokenF = none) ∧
    bearerHeaders Creds.empty
      = [contentTypeJson, ("Accept", "application/json"),
         ("Authorization", "Bearer undefined")] :=
  ⟨⟨by decide, by decide, by decide⟩,
   (c5_no_shape_validation mockAead [7] mockHash (fun _ => ⟨200, "OK", "upstream", []⟩)
     ⟨"dm", "pm", "um"⟩
     [⟨"s", "bearer",
       encryptToken mockAead [7] [0, 0, 0, 0, 0, 0, 0, 0, 0, 0, 0, 0]
         (stringifyCreds Creds.empty), "https://h", none, 0, 10, 0⟩]
     5 "2026-01-01T00:00:00.000Z" "GET" "/api/iceberg/v1/config" "" ""
     "s"
     ⟨"s", "bearer",
       encryptToken mockAead [7] [0, 0, 0, 0, 0, 0, 0, 0, 0, 0, 0, 0]
         (stringifyCreds Creds.empty), "https://h", none, 0, 10, 0⟩
     Creds.empty (by decide) (by decide) (by decide) (by decide)).1⟩

/-- C6: the session lookup returns a session iff a stored row with the
requested id exists with `expires_at > now` (on a well-formed store whose
blobs decrypt and parse); and when every row with that id is expired — in
particular when no row exists at all — the proxy returns the very same 401
`Invalid or expired session` response, making an expired row observationally
identical to a missing one. -/
theorem c6_expired_equals_missing (A : AEAD) (key : Bytes) (H : CryptoHash)
    (net : HttpReq → HttpResp) (E : EnvMsgs) (db : List SessionRow)
    (sid : String) (now : Nat) (isoNow method pathname search inBody : String)
    (hwf : ∀ r ∈ db, ∃ s, decryptToken A key r.encrypted_credentials = some s ∧
      (parseCreds s).isSome) :
    ((∃ r ∈ db, r.session_id = sid ∧ now < r.expires_at) ↔
      ∃ sess, getSession A key E db sid now = .ok (some sess)) ∧
    ((∀ r ∈ db, r.session_id = sid → r.expires_at ≤ now) →
      handleIcebergProxy A key H net E db now isoNow method pathname search inBody (some sid)
        = (resp401Invalid, [])) := by
  constructor
  · constructor
    · rintro ⟨r, hr, hid, hlt⟩
      have hp : sessionRowMatch sid now r = true := by simp [sessionRowMatch, hid, hlt]
      have hsome : (db.find? (sessionRowMatch sid now)).isSome :=
        List.find?_isSome.mpr ⟨r, hr, hp⟩
      obtain ⟨r2, hfind⟩ := Option.isSome_iff_exists.mp hsome
      obtain ⟨s, hdec, hparse⟩ := hwf r2 (List.mem_of_find?_eq_some hfind)
      obtain ⟨c, hc⟩ := Option.isSome_iff_exists.mp hparse
      refine ⟨{ sessionId := r2.session_id, authType := r2.auth_type, credentials := c,
                endpoint := r2.endpoint, warehouse := r2.warehouse }, ?_⟩
      unfold getSession
      rw [hfind]
      simp [hdec, hc]
    · rintro ⟨sess, hsess⟩
      cases hf : db.find? (sessionRowMatch sid now) with
      | none =>
        unfold getSession at hsess
        rw [hf] at hsess
        simp at hsess
      | some r =>
        have hp := List.find?_some hf
        simp only [sessionRowMatch, Bool.and_eq_true, beq_iff_eq, decide_eq_true_eq] at hp
        exact ⟨r, List.mem_of_find?_eq_some hf, hp.1, hp.2⟩
  · intro hexp
    have hf : db.find? (sessionRowMatch sid now) = none := by
      rw [List.find?_eq_none]
      intro x hx
      simp only [sessionRowMatch, Bool.and_eq_true, beq_iff_eq, decide_eq_true_eq, not_and]
      intro hid
      have := hexp x hx hid
      omega
    have hges : getSession A key E db sid now = .ok none := by
      unfold getSession
      rw [hf]
    simp only [handleIcebergProxy, hges]

/-- Witness for C6 at a concrete input: a store holding one expired row. -/
theorem c6_expired_equals_missing_witness :
    (∀ r ∈ [(⟨"s", "bearer",
        encryptToken mockAead [7] [0, 0, 0, 0, 0, 0, 0, 0, 0, 0, 0, 0]
          (stringifyCreds (Creds.bearer "t")), "https://h", none, 0, 3, 0⟩ : SessionRow)],
      ∃ s, decryptToken mockAead [7] r.encrypted_credentials = some s ∧
        (parseCreds s).isSome) ∧
    (((∃ r ∈ [(⟨"s", "bearer",
          encryptToken mockAead [7] [0, 0, 0, 0, 0, 0, 0, 0, 0, 0, 0, 0]
            (stringifyCreds (Creds.bearer "t")), "https://h", none, 0, 3, 0⟩ : SessionRow)],
          r.session_id = "s" ∧ 5 < r.expires_at) ↔
        ∃ sess, getSession mockAead [7] ⟨"dm", "pm", "um"⟩
          [⟨"s", "bearer",
            encryptToken mockAead [7] [0, 0, 0, 0, 0, 0, 0, 0, 0, 0, 0, 0]
              (stringifyCreds (Creds.bearer "t")), "https://h", none, 0, 3, 0⟩] "s" 5
          = .ok (some sess)) ∧
      ((∀ r ∈ [(⟨"s", "bearer",
            encryptToken mockAead [7] [0, 0, 0, 0, 0, 0, 0, 0, 0, 0, 0, 0]
              (stringifyCreds (Creds.bearer "t")), "https://h", none, 0, 3, 0⟩ : SessionRow)],
          r.session_id = "s" → r.expires_at ≤ 5) →
        handleIcebergProxy mockAead [7] mockHash (fun _ => ⟨200, "OK", "", []⟩)
            ⟨"dm", "pm", "um"⟩
            [⟨"s", "bearer",
              encryptToken mockAead [7] [0, 0, 0, 0, 0, 0, 0, 0, 0, 0, 0, 0]
                (stringifyCreds (Creds.bearer "t")), "https://h", none, 0, 3, 0⟩]
            5 "2026-01-01T00:00:00.000Z" "GET" "/api/iceberg/v1/config" "" "" (some "s")
          = (resp401Invalid, []))) := by
  have hwf : ∀ r ∈ [(⟨"s", "bearer",
      encryptToken mockAead [7] [0, 0, 0, 0, 0, 0, 0, 0, 0, 0, 0, 0]
        (stringifyCreds (Creds.bearer "t")), "https://h", none, 0, 3, 0⟩ : SessionRow)],
      ∃ s, decryptToken mockAead [7] r.encrypted_credentials = some s ∧
        (parseCreds s).isSome := by
    intro r hr
    simp only [List.mem_singleton] at hr
    subst hr
    exact ⟨stringifyCreds (Creds.bearer "t"), by decide, by decide⟩
  exact ⟨hwf,
    c6_expired_equals_missing mockAead [7] mockHash (fun _ => ⟨200, "OK", "", []⟩)
      ⟨"dm", "pm", "um"⟩ _ "s" 5 "2026-01-01T00:00:00.000Z" "GET" "/api/iceberg/v1/config" "" ""
      hwf⟩

/-- C7: under an oauth2 session the proxy issues exactly one token-exchange
POST — to the stored token endpoint, with HTTP Basic auth
(base64 of `clientId:clientSecret`) and form body
`grant_type=client_credentials&scope=<scope>` — before the single proxied
call (the issued-request log is exactly `[exchange, proxied]`, so no token
is cached across requests); a non-2xx exchange response aborts the proxied
request without retry (log exactly `[exchange]`, 502 response). -/
theorem c7_oauth_single_exchange (A : AEAD) (key : Bytes) (H : CryptoHash)
    (net : HttpReq → HttpResp) (E : EnvMsgs) (db : List SessionRow)
    (now : Nat) (isoNow method pathname search inBody sid : String)
    (r : SessionRow) (e cid csec sc : String)
    (hfind : db.find? (sessionRowMatch sid now) = some r)
    (hdec : decryptToken A key r.encrypted_credentials
      = some (stringifyCreds (Creds.oauth2 e cid csec sc)))
    (hauth : r.auth_type = "oauth2") :
    ((oauthTokenRequest e cid csec (resolveScope (some sc))).url = e ∧
     (oauthTokenRequest e cid csec (resolveScope (some sc))).method = "POST" ∧
     (oauthTokenRequest e cid csec (resolveScope (some sc))).headers
       = [("Content-Type", "application/x-www-form-urlencoded"),
          ("Authorization", "Basic " ++ jsBtoa (cid ++ ":" ++ csec))] ∧
     (oauthTokenRequest e cid csec (resolveScope (some sc))).body
       = "grant_type=client_credentials&scope=" ++
         encodeURIComponent (resolveScope (some sc))) ∧
    ((net (oauthTokenRequest e cid csec (resolveScope (some sc)))).respOk = true →
      handleIcebergProxy A key H net E db now isoNow method pathname search inBody (some sid)
        = ({ status := (net
               { url := r.endpoint ++ replaceFirst "/api/iceberg" pathname ++ search
                 method := method
                 headers := [contentTypeJson, ("Accept", "application/json"),
                   ("Authorization", "Bearer " ++ jsShow (lookupField
                     (net (oauthTokenRequest e cid csec (resolveScope (some sc)))).jsonFields
                     "access_token"))]
                 body := if method = "GET" ∨ method = "HEAD" then "" else inBody }).status,
             statusText := (net
               { url := r.endpoint ++ replaceFirst "/api/iceberg" pathname ++ search
                 method := method
                 headers := [contentTypeJson, ("Accept", "application/json"),
                   ("Authorization", "Bearer " ++ jsShow (lookupField
                     (net (oauthTokenRequest e cid csec (resolveScope (some sc)))).jsonFields
                     "access_token"))]
                 body := if method = "GET" ∨ method = "HEAD" then "" else inBody }).statusText,
             headers := relayHeaders,
             body := (net
               { url := r.endpoint ++ replaceFirst "/api/iceberg" pathname ++ search
                 method := method
                 headers := [contentTypeJson, ("Accept", "application/json"),
                   ("Authorization", "Bearer " ++ jsShow (lookupField
                     (net (oauthTokenRequest e cid csec (resolveScope (some sc)))).jsonFields
                     "access_token"))]
                 body := if method = "GET" ∨ method = "HEAD" then "" else inBody }).body },
           [oauthTokenRequest e cid csec (resolveScope (some sc)),
            { url := r.endpoint ++ replaceFirst "/api/iceberg" pathname ++ search
              method := method
              headers := [contentTypeJson, ("Accept", "application/json"),
                ("Authorization", "Bearer " ++ jsShow (lookupField
                  (net (oauthTokenRequest e cid csec (resolveScope (some sc)))).jsonFields
                  "access_token"))]
              body := if method = "GET" ∨ method = "HEAD" then "" else inBody }])) ∧
    ((net (oauthTokenRequest e cid csec (resolveScope (some sc)))).respOk = false →
      handleIcebergProxy A key H net E db now isoNow method pathname search inBody (some sid)
        = (proxyErrorResponse ("OAuth2 token exchange failed: " ++
             (net (oauthTokenRequest e cid csec (resolveScope (some sc)))).statusText),
           [oauthTokenRequest e cid csec (resolveScope (some sc))])) := by
  refine ⟨⟨rfl, rfl, rfl, rfl⟩, ?_, ?_⟩
  · intro hok
    simp only [handleIcebergProxy,
      getSession_found A key E db sid now r (Creds.oauth2 e cid csec sc) hfind hdec, hauth,
      Creds.oauthEndpointF, Creds.clientIdF, Creds.clientSecretF, Creds.scopeF, jsShow,
      String.reduceEq, reduceIte, getOAuth2Token, hok, eq_self_iff_true, if_true]
    rfl
  · intro hfail
    simp only [handleIcebergProxy,
      getSession_found A key E db sid now r (Creds.oauth2 e cid csec sc) hfind hdec, hauth,
      Creds.oauthEndpointF, Creds.clientIdF, Creds.clientSecretF, Creds.scopeF, jsShow,
      String.reduceEq, reduceIte, getOAuth2Token, hfail, Bool.false_eq_true, if_false]

/-- Witness for C7 at a concrete input (both the success branch and the
abort branch of the conclusion are applicable; the oracle returns 200). -/
theorem c7_oauth_single_exchange_witness :
    ([(⟨"s", "oauth2",
        encryptToken mockAead [7] [0, 0, 0, 0, 0, 0, 0, 0, 0, 0, 0, 0]
          (stringifyCreds (Creds.oauth2 "https://t" "id" "sec" "SC")),
        "https://h", none, 0, 10, 0⟩ : SessionRow)].find? (sessionRowMatch "s" 5)
        = some ⟨"s", "oauth2",
            encryptToken mockAead [7] [0, 0, 0, 0, 0, 0, 0, 0, 0, 0, 0, 0]
              (stringifyCreds (Creds.oauth2 "https://t" "id" "sec" "SC")),
            "https://h", none, 0, 10, 0⟩) ∧
    decryptToken mockAead [7]
        (encryptToken mockAead [7] [0, 0, 0, 0, 0, 0, 0, 0, 0, 0, 0, 0]
          (stringifyCreds (Creds.oauth2 "https://t" "id" "sec" "SC")))
      = some (stringifyCreds (Creds.oauth2 "https://t" "id" "sec" "SC")) ∧
    (oauthTokenRequest "https://t" "id" "sec" (resolveScope (some "SC"))).body
      = "grant_type=client_credentials&scope=" ++
        encodeURIComponent (resolveScope (some "SC")) := by
  refine ⟨by decide, by decide, ?_⟩
  exact (c7_oauth_single_exchange mockAead [7] mockHash
    (fun _ => ⟨200, "OK", "", [("access_token", "tok")]⟩) ⟨"dm", "pm", "um"⟩
    [⟨"s", "oauth2",
      encryptToken mockAead [7] [0, 0, 0, 0, 0, 0, 0, 0, 0, 0, 0, 0]
        (stringifyCreds (Creds.oauth2 "https://t" "id" "sec" "SC")),
      "https://h", none, 0, 10, 0⟩]
    5 "2026-01-01T00:00:00.000Z" "GET" "/api/iceberg/v1/config" "" "" "s"
    ⟨"s", "oauth2",
      encryptToken mockAead [7] [0, 0, 0, 0, 0, 0, 0, 0, 0, 0, 0, 0]
        (stringifyCreds (Creds.oauth2 "https://t" "id" "sec" "SC")),
      "https://h", none, 0, 10, 0⟩
    "https://t" "id" "sec" "SC" (by decide) (by decide) (by decide)).1.2.2.2

/-- C8: two encryption calls on the same record under the same key that draw
distinct 96-bit nonces produce different opaque ciphertext strings, and both
decrypt back to the original plaintext. -/
theorem c8_nonce_uniqueness (A : AEAD) (key iv1 iv2 : Bytes) (t : String)
    (hlen1 : iv1.length = 12) (hlen2 : iv2.length = 12)
    (hb1 : ∀ b ∈ iv1, b < 256) (hb2 : ∀ b ∈ iv2, b < 256)
    (hne : iv1 ≠ iv2) :
    encryptToken A key iv1 t ≠ encryptToken A key iv2 t ∧
    decryptToken A key (encryptToken A key iv1 t) = some t ∧
    decryptToken A key (encryptToken A key iv2 t) = some t := by
  refine ⟨?_, decryptToken_encryptToken A key iv1 t hlen1 hb1,
    decryptToken_encryptToken A key iv2 t hlen2 hb2⟩
  intro h
  unfold encryptToken at h
  have hdata : bytesToBase64 (iv1 ++ A.enc key iv1 (utf8Encode t.data))
      = bytesToBase64 (iv2 ++ A.enc key iv2 (utf8Encode t.data)) := by
    have := congrArg String.data h
    simpa [string_data_mk] using this
  have hv1 : ∀ b ∈ iv1 ++ A.enc key iv1 (utf8Encode t.data), b < 256 := by
    intro b hb
    rcases List.mem_append.mp hb with hb | hb
    · exact hb1 b hb
    · exact A.enc_bytes key iv1 _ (utf8Encode_lt t.data) b hb
  have hv2 : ∀ b ∈ iv2 ++ A.enc key iv2 (utf8Encode t.data), b < 256 := by
    intro b hb
    rcases List.mem_append.mp hb with hb | hb
    · exact hb2 b hb
    · exact A.enc_bytes key iv2 _ (utf8Encode_lt t.data) b hb
  have hbytes := bytesToBase64_injOn _ _ hv1 hv2 hdata
  have htk := congrArg (List.take 12) hbytes
  have e1 : (iv1 ++ A.enc key iv1 (utf8Encode t.data)).take 12 = iv1 := by
    rw [← hlen1]; exact List.take_left iv1 _
  have e2 : (iv2 ++ A.enc key iv2 (utf8Encode t.data)).take 12 = iv2 := by
    rw [← hlen2]; exact List.take_left iv2 _
  rw [e1, e2] at htk
  exact hne htk

/-- Witness for C8 at concrete distinct nonces. -/
theorem c8_nonce_uniqueness_witness :
    ([0, 0, 0, 0, 0, 0, 0, 0, 0, 0, 0, 0] : Bytes).length = 12 ∧
    ([0, 0, 0, 0, 0, 0, 0, 0, 0, 0, 0, 9] : Bytes).length = 12 ∧
    ([0, 0, 0, 0, 0, 0, 0, 0, 0, 0, 0, 0] : Bytes) ≠ [0, 0, 0, 0, 0, 0, 0, 0, 0, 0, 0, 9] ∧
    encryptToken mockAead [7] [0, 0, 0, 0, 0, 0, 0, 0, 0, 0, 0, 0] "secret"
      ≠ encryptToken mockAead [7] [0, 0, 0, 0, 0, 0, 0, 0, 0, 0, 0, 9] "secret" ∧
    decryptToken mockAead [7]
        (encryptToken mockAead [7] [0, 0, 0, 0, 0, 0, 0, 0, 0, 0, 0, 0] "secret")
      = some "secret" ∧
    decryptToken mockAead [7]
        (encryptToken mockAead [7] [0, 0, 0, 0, 0, 0, 0, 0, 0, 0, 0, 9] "secret")
      = some "secret" := by
  have h := c8_nonce_uniqueness mockAead [7] [0, 0, 0, 0, 0, 0, 0, 0, 0, 0, 0, 0]
    [0, 0, 0, 0, 0, 0, 0, 0, 0, 0, 0, 9] "secret" (by decide) (by decide) (by decide)
    (by decide) (by decide)
  exact ⟨by decide, by decide, by decide, h.1, h.2.1, h.2.2⟩

/-- C9: a login whose `authType` is none of bearer/oauth2/sigv4 nevertheless
succeeds — HTTP 200 with a fresh session id — storing an empty credentials
record under the unknown auth type (no 400 validation error); a subsequent
proxy call under that session then fails with the 502 proxy error
`Unsupported auth type: <type>`. -/
theorem c9_unknown_auth_type (A : AEAD) (key iv : Bytes) (H : CryptoHash)
    (net : HttpReq → HttpResp) (E : EnvMsgs) (db : List SessionRow)
    (b : LoginBody) (sid ep at2 : String) (now t : Nat)
    (isoNow method pathname search inBody : String)
    (hend : b.endpoint = some ep) (hepne : ep ≠ "")
    (hurl : (parseUrl ep).isSome = true)
    (hat : b.authType = some at2)
    (h1 : at2 ≠ "bearer") (h2 : at2 ≠ "oauth2") (h3 : at2 ≠ "sigv4")
    (hivlen : iv.length = 12) (hiv : ∀ b2 ∈ iv, b2 < 256)
    (hfresh : ∀ r ∈ db, r.session_id ≠ sid)
    (ht : t < now + SESSION_DURATION) :
    handleLogin A key iv E db (some b) sid now
      = (loginOkResponse sid (now + SESSION_DURATION),
         db ++ [createSessionRow A key iv sid at2 Creds.empty ep
           (resolveWarehouse b.warehouse) now]) ∧
    (loginOkResponse sid (now + SESSION_DURATION)).status = 200 ∧
    handleIcebergProxy A key H net E
        (db ++ [createSessionRow A key iv sid at2 Creds.empty ep
          (resolveWarehouse b.warehouse) now])
        t isoNow method pathname search inBody (some sid)
      = (proxyErrorResponse ("Unsupported auth type: " ++ at2), []) ∧
    (proxyErrorResponse ("Unsupported auth type: " ++ at2)).status = 502 := by
  refine ⟨?_, rfl, ?_, rfl⟩
  · have hfe : falsyS b.endpoint = false := by
      rw [hend]
      simp [falsyS, hepne]
    simp only [handleLogin, hfe, Bool.false_eq_true, if_false, hend, hat, jsShow,
      Option.getD_some, hurl, h1, h2, h3, reduceIte, if_true]
    simp [falsyS, hepne]
  · have hses := getSession_created A key iv E db sid at2 Creds.empty ep
      (resolveWarehouse b.warehouse) now t hivlen hiv hfresh ht
    simp only [handleIcebergProxy, hses, h1, h2, h3, reduceIte]

/-- Witness for C9 at a concrete input (`authType = "custom"`). -/
theorem c9_unknown_auth_type_witness :
    ((⟨some "https://h", some "custom", none, none, none, none, none, none, none,
        none, none, none⟩ : LoginBody).endpoint = some "https://h" ∧
      ("https://h" : String) ≠ "" ∧
      (parseUrl "https://h").isSome = true ∧
      ("custom" : String) ≠ "bearer" ∧
      (∀ r ∈ ([] : List SessionRow), r.session_id ≠ "sid9") ∧
      (5 : Nat) < 0 + SESSION_DURATION) ∧
    (handleLogin mockAead [7] [0, 0, 0, 0, 0, 0, 0, 0, 0, 0, 0, 0] ⟨"dm", "pm", "um"⟩ []
        (some ⟨some "https://h", some "custom", none, none, none, none, none, none, none,
          none, none, none⟩) "sid9" 0
      = (loginOkResponse "sid9" (0 + SESSION_DURATION),
         [] ++ [createSessionRow mockAead [7] [0, 0, 0, 0, 0, 0, 0, 0, 0, 0, 0, 0] "sid9"
           "custom" Creds.empty "https://h" (resolveWarehouse none) 0]) ∧
    (loginOkResponse "sid9" (0 + SESSION_DURATION)).status = 200 ∧
    handleIcebergProxy mockAead [7] mockHash (fun _ => ⟨200, "OK", "", []⟩) ⟨"dm", "pm", "um"⟩
        ([] ++ [createSessionRow mockAead [7] [0, 0, 0, 0, 0, 0, 0, 0, 0, 0, 0, 0] "sid9"
          "custom" Creds.empty "https://h" (resolveWarehouse none) 0])
        5 "2026-01-01T00:00:00.000Z" "GET" "/api/iceberg/v1/config" "" "" (some "sid9")
      = (proxyErrorResponse ("Unsupported auth type: " ++ "custom"), []) ∧
    (proxyErrorResponse ("Unsupported auth type: " ++ "custom")).status = 502) :=
  ⟨⟨by decide, by decide, by decide, by decide, by simp, by decide⟩,
   c9_unknown_auth_type mockAead [7] [0, 0, 0, 0, 0, 0, 0, 0, 0, 0, 0, 0] mockHash
     (fun _ => ⟨200, "OK", "", []⟩) ⟨"dm", "pm", "um"⟩ []
     ⟨some "https://h", some "custom", none, none, none, none, none, none, none,
       none, none, none⟩
     "sid9" "https://h" "custom" 0 5 "2026-01-01T00:00:00.000Z" "GET" "/api/iceberg/v1/config"
     "" "" (by decide) (by decide) (by decide) (by decide) (by decide) (by decide) (by decide)
     (by decide) (by decide) (by simp) (by decide)⟩

/-- C10: every proxied call that reaches the upstream catalog relays the
upstream's status, statusText and body but none of the upstream's headers:
the relayed headers are exactly the three fixed CORS headers plus
`Content-Type: application/json`, whatever the upstream returned — for each
of the three auth schemes. -/
theorem c10_relay_fixed_headers (A : AEAD) (key : Bytes) (H : CryptoHash)
    (net : HttpReq → HttpResp) (E : EnvMsgs) (db : List SessionRow)
    (now : Nat) (isoNow method pathname search inBody sid : String)
    (r : SessionRow) (c : Creds)
    (hfind : db.find? (sessionRowMatch sid now) = some r)
    (hdec : decryptToken A key r.encrypted_credentials = some (stringifyCreds c)) :
    (∀ resp : HttpResp, relayResponse resp
      = { status := resp.status, statusText := resp.statusText,
          headers := [("Access-Control-Allow-Origin", "*"),
                      ("Access-Control-Allow-Methods", "GET, POST, PUT, DELETE, OPTIONS"),
                      ("Access-Control-Allow-Headers", "Content-Type, Authorization, X-Session-ID"),
                      ("Content-Type", "application/json")],
          body := resp.body }) ∧
    (r.auth_type = "bearer" →
      handleIcebergProxy A key H net E db now isoNow method pathname search inBody (some sid)
        = (relayResponse (net
            { url := r.endpoint ++ replaceFirst "/api/iceberg" pathname ++ search
              method := method
              headers := bearerHeaders c
              body := if method = "GET" ∨ method = "HEAD" then "" else inBody }),
           [{ url := r.endpoint ++ replaceFirst "/api/iceberg" pathname ++ search
              method := method
              headers := bearerHeaders c
              body := if method = "GET" ∨ method = "HEAD" then "" else inBody }])) ∧
    (r.auth_type = "oauth2" →
      (net (oauthTokenRequest (jsShow c.oauthEndpointF) (jsShow c.clientIdF)
        (jsShow c.clientSecretF) (resolveScope c.scopeF))).respOk = true →
      (handleIcebergProxy A key H net E db now isoNow method pathname search inBody
        (some sid)).1
        = relayResponse (net
            { url := r.endpoint ++ replaceFirst "/api/iceberg" pathname ++ search
              method := method
              headers := [contentTypeJson, ("Accept", "application/json"),
                ("Authorization", "Bearer " ++ jsShow (lookupField
                  (net (oauthTokenRequest (jsShow c.oauthEndpointF) (jsShow c.clientIdF)
                    (jsShow c.clientSecretF) (resolveScope c.scopeF))).jsonFields
                  "access_token"))]
              body := if method = "GET" ∨ method = "HEAD" then "" else inBody })) ∧
    (∀ url : UrlParts, r.auth_type = "sigv4" →
      parseUrl (r.endpoint ++ replaceFirst "/api/iceberg" pathname ++ search) = some url →
      handleIcebergProxy A key H net E db now isoNow method pathname search inBody (some sid)
        = (relayResponse (net
            { url := r.endpoint ++ replaceFirst "/api/iceberg" pathname ++ search
              method := method
              headers := signAwsRequest H url method (jsShow c.awsAccessKeyF)
                (jsShow c.awsSecretKeyF) (jsShow c.awsRegionF) c.awsServiceF isoNow
                (if method = "GET" ∨ method = "HEAD" then "" else inBody)
              body := if method = "GET" ∨ method = "HEAD" then "" else inBody }),
           [{ url := r.endpoint ++ replaceFirst "/api/iceberg" pathname ++ search
              method := method
              headers := signAwsRequest H url method (jsShow c.awsAccessKeyF)
                (jsShow c.awsSecretKeyF) (jsShow c.awsRegionF) c.awsServiceF isoNow
                (if method = "GET" ∨ method = "HEAD" then "" else inBody)
              body := if method = "GET" ∨ method = "HEAD" then "" else inBody }])) := by
  refine ⟨fun resp => rfl, ?_, ?_, ?_⟩
  · intro hb
    simp only [handleIcebergProxy, getSession_found A key E db sid now r c hfind hdec, hb,
      reduceIte, List.nil_append]
  · intro ho hok
    simp only [handleIcebergProxy, getSession_found A key E db sid now r c hfind hdec, ho,
      String.reduceEq, reduceIte, getOAuth2Token, hok, eq_self_iff_true, if_true]
  · intro url hs hurl
    simp only [handleIcebergProxy, getSession_found A key E db sid now r c hfind hdec, hs,
      String.reduceEq, reduceIte, hurl, List.nil_append]

/-- Witness for C10 at a concrete input (bearer scheme). -/
theorem c10_relay_fixed_headers_witness :
    ([(⟨"s", "bearer",
        encryptToken mockAead [7] [0, 0, 0, 0, 0, 0, 0, 0, 0, 0, 0, 0]
          (stringifyCreds (Creds.bearer "tk")), "https://h", none, 0, 10, 0⟩ :
        SessionRow)].find? (sessionRowMatch "s" 5)
      = some ⟨"s", "bearer",
          encryptToken mockAead [7] [0, 0, 0, 0, 0, 0, 0, 0, 0, 0, 0, 0]
            (stringifyCreds (Creds.bearer "tk")), "https://h", none, 0, 10, 0⟩) ∧
    (∀ resp : HttpResp, relayResponse resp
      = { status := resp.status, statusText := resp.statusText,
          headers := [("Access-Control-Allow-Origin", "*"),
                      ("Access-Control-Allow-Methods", "GET, POST, PUT, DELETE, OPTIONS"),
                      ("Access-Control-Allow-Headers", "Content-Type, Authorization, X-Session-ID"),
                      ("Content-Type", "application/json")],
          body := resp.body }) :=
  ⟨by decide,
   (c10_relay_fixed_headers mockAead [7] mockHash
     (fun _ => ⟨418, "teapot", "upstream-body", []⟩) ⟨"dm", "pm", "um"⟩
     [⟨"s", "bearer",
       encryptToken mockAead [7] [0, 0, 0, 0, 0, 0, 0, 0, 0, 0, 0, 0]
         (stringifyCreds (Creds.bearer "tk")), "https://h", none, 0, 10, 0⟩]
     5 "2026-01-01T00:00:00.000Z" "GET" "/api/iceberg/v1/config" "" "" "s"
     ⟨"s", "bearer",
       encryptToken mockAead [7] [0, 0, 0, 0, 0, 0, 0, 0, 0, 0, 0, 0]
         (stringifyCreds (Creds.bearer "tk")), "https://h", none, 0, 10, 0⟩
     (Creds.bearer "tk") (by decide) (by decide)).1⟩

end IcebergRest
